import Mathlib

/-!
# ProtoGalaxy folding prover: transcript order, bounds and target sum

Shallow embedding of `ProtoGalaxyProver_::prepare_for_folding` and
`ProtoGalaxyProver_::fold_instances`
(`barretenberg/honk/proof_system/protogalaxy_prover.cpp`).

* The scalar field `FF` is any commutative ring `F` (the prover only adds, subtracts and
  multiplies in this file).
* The transcript is the chronological list of its events: every `send_to_verifier` and every
  challenge request.  The challenge derivation is a function `hash` of the events so far.
* `std::vector` / `Polynomial` indexing is checked: an access outside the container is the
  fault `out_of_bounds`, and the run stops there keeping the transcript reached.
* Everything called by the two functions but declared elsewhere (the instance preparation
  routines, `fold_parameters`, `compute_perturbator`, `compute_combiner`, ...) is a field of
  `Externals`, so every theorem holds for every implementation of them.
-/

namespace ProtoGalaxy

/-- Fault of a run: an indexed access outside its container (undefined behaviour in C++). -/
inductive Fault where
  | out_of_bounds (container : String) (index : Nat)
deriving DecidableEq, Repr

/-- Payload of `send_to_verifier`: a `uint32_t` or a field element. -/
inductive Value (F : Type) where
  | u32 (n : Nat)
  | field (x : F)
deriving DecidableEq, Repr

/-- One transcript event. -/
inductive Event (F : Type) where
  | send (label : String) (value : Value F)
  | challenge (label : String)
deriving DecidableEq, Repr

/-- The transcript: its events, oldest first. -/
structure Transcript (F : Type) where
  events : List (Event F)
deriving DecidableEq, Repr

/-- `transcript.send_to_verifier(label, value)`. -/
def Transcript.send_to_verifier {F : Type} (t : Transcript F) (label : String) (value : Value F) :
    Transcript F :=
  ⟨t.events ++ [Event.send label value]⟩

/-- Modelled from the spec: `transcript.get_challenge(label)` (the transcript class is defined
in another file of the repository) "derives a challenge deterministically as a function of
every prior send in the session" (§6); the request itself is recorded. -/
def Transcript.get_challenge {F : Type} (hash : List (Event F) → String → F) (t : Transcript F)
    (label : String) : F × Transcript F :=
  (hash t.events label, ⟨t.events ++ [Event.challenge label]⟩)

/-- `static_cast<uint32_t>(n)`. -/
def to_uint32 (n : Nat) : Nat := n % 2 ^ 32

/-- `instance->proving_key`, the two members read by the prover. -/
structure ProvingKey where
  circuit_size : Nat
  num_public_inputs : Nat
deriving DecidableEq, Repr

/-- `folding_parameters` of an instance. -/
structure FoldingParameters (F : Type) where
  target_sum : F
  gate_separation_challenges : List F
deriving DecidableEq, Repr

/-- A prover instance: the members read by the two functions, and `other` for all the members
they do not read (`X` is arbitrary). -/
structure Instance (F X : Type) where
  proving_key : ProvingKey
  pub_inputs_offset : Nat
  public_inputs : List F
  prover_polynomials : List (List F)
  folding_parameters : FoldingParameters F
  other : X
deriving DecidableEq, Repr

/-- What the two functions call but do not define.  `U` is the type of the combiner quotient
(a `Univariate`), used only through `value_at` and `evaluate`. -/
structure Externals (F X U : Type) where
  /-- the challenge derivation of the transcript -/
  hash : List (Event F) → String → F
  initialise_prover_polynomials : Instance F X → Instance F X
  compute_sorted_accumulator_polynomials : F → Instance F X → Instance F X
  compute_grand_product_polynomials : F → F → Instance F X → Instance F X
  fold_parameters : List (Instance F X) → List (Instance F X)
  compute_round_challenge_pows : Nat → F → List F
  compute_perturbator : Instance F X → List F → F → List F
  compute_pow_polynomial_at_values : List F → Nat → List F
  compute_combiner : List (Instance F X) → List F → F → List F
  compute_combiner_quotient : F → List F → U
  value_at : U → Nat → F
  evaluate : U → F → F

/-- The counting loop `for (idx = start; n iterations; idx++) body`, stopping at the first
fault with the state reached. -/
def for_loop {σ : Type} (body : Nat → σ → σ × Except Fault Unit) :
    Nat → Nat → σ → σ × Except Fault Unit
  | 0, _, s => (s, Except.ok ())
  | n + 1, idx, s =>
    match body idx s with
    | (s1, Except.ok _) => for_loop body n (idx + 1) s1
    | (s1, Except.error e) => (s1, Except.error e)

/-- Body of the loop of lines 21-24: read `public_inputs[i]` and send it. -/
def send_public_input {F X : Type} (domain_separator : String) (inst : Instance F X) (i : Nat)
    (t : Transcript F) : Transcript F × Except Fault Unit :=
  match inst.public_inputs[i]? with
  | none => (t, Except.error (Fault.out_of_bounds "public_inputs" i))
  | some public_input_i =>
    (t.send_to_verifier (domain_separator ++ "_public_input_" ++ toString i)
      (Value.field public_input_i), Except.ok ())

/-- One iteration of the loop of `prepare_for_folding` (lines 9-31) on the instance at `idx`.
`get_challenges(a, b, c)` is the batched form of `get_challenge` (§6): one request per label,
in the order of the labels. -/
def prepare_instance {F X U : Type} (P : Externals F X U) (idx : Nat) (inst0 : Instance F X)
    (t : Transcript F) : Transcript F × Except Fault (Instance F X) :=
  let inst := P.initialise_prover_polynomials inst0
  let domain_separator := toString idx
  let circuit_size := to_uint32 inst.proving_key.circuit_size
  let num_public_inputs := to_uint32 inst.proving_key.num_public_inputs
  let t1 := t.send_to_verifier (domain_separator ++ "_circuit_size") (Value.u32 circuit_size)
  let t2 := t1.send_to_verifier (domain_separator ++ "_public_input_size")
    (Value.u32 num_public_inputs)
  let t3 := t2.send_to_verifier (domain_separator ++ "_pub_inputs_offset")
    (Value.u32 (to_uint32 inst.pub_inputs_offset))
  match for_loop (send_public_input domain_separator inst) inst.proving_key.num_public_inputs 0
      t3 with
  | (t4, Except.error e) => (t4, Except.error e)
  | (t4, Except.ok _) =>
    let eta := t4.get_challenge P.hash (domain_separator ++ "_eta")
    let beta := eta.2.get_challenge P.hash (domain_separator ++ "_beta")
    let gamma := beta.2.get_challenge P.hash (domain_separator ++ "_gamma")
    let inst1 := P.compute_sorted_accumulator_polynomials eta.1 inst
    let inst2 := P.compute_grand_product_polynomials beta.1 gamma.1 inst1
    (gamma.2, Except.ok inst2)

/-- The loop of `prepare_for_folding` over the instances, `idx` counting with the iterator. -/
def prepare_instances {F X U : Type} (P : Externals F X U) :
    List (Instance F X) → Nat → Transcript F → Transcript F × Except Fault (List (Instance F X))
  | [], _, t => (t, Except.ok [])
  | inst :: rest, idx, t =>
    match prepare_instance P idx inst t with
    | (t1, Except.error e) => (t1, Except.error e)
    | (t1, Except.ok inst1) =>
      match prepare_instances P rest (idx + 1) t1 with
      | (t2, Except.error e) => (t2, Except.error e)
      | (t2, Except.ok rest1) => (t2, Except.ok (inst1 :: rest1))

/-- `ProtoGalaxyProver_::prepare_for_folding` (lines 5-35). -/
def prepare_for_folding {F X U : Type} (P : Externals F X U) (instances : List (Instance F X))
    (t : Transcript F) : Transcript F × Except Fault (List (Instance F X)) :=
  match prepare_instances P instances 0 t with
  | (t1, Except.error e) => (t1, Except.error e)
  | (t1, Except.ok prepared) => (t1, Except.ok (P.fold_parameters prepared))

/-- Modelled from the spec: `numeric::get_msb` is defined in another file of the repository;
the spec takes `d = log2(size)` (§4.2), the index of the most significant bit.  This is the
halving loop with `fuel` iterations left. -/
def get_msb_halving : Nat → Nat → Nat
  | 0, _ => 0
  | fuel + 1, n => if 2 ≤ n then get_msb_halving fuel (n / 2) + 1 else 0

/-- Modelled from the spec: `numeric::get_msb(n)`, by halving `n` until it is below 2. -/
def get_msb (n : Nat) : Nat := get_msb_halving n n

/-- Modelled from the spec: `Polynomial::evaluate` is the external "dense polynomial evaluate"
primitive (§2); the polynomial is its list of coefficients, lowest degree first. -/
def polynomial_evaluate {F : Type} [CommRing F] (coefficients : List F) (z : F) : F :=
  coefficients.foldr (fun c acc => c + z * acc) 0

/-- Modelled from the spec: `get_accumulator()` is declared in the header of the prover; the
accumulator is the instance at index 0 (§3, §4.4). -/
def get_accumulator {F X : Type} (instances : List (Instance F X)) :
    Except Fault (Instance F X) :=
  match instances[0]? with
  | none => Except.error (Fault.out_of_bounds "instances" 0)
  | some accumulator => Except.ok accumulator

/-- Modelled from the spec: `transcript.proof_data` is "the serialized log" (§6): the values
sent so far, in order. -/
def Transcript.proof_data {F : Type} (t : Transcript F) : List (Value F) :=
  t.events.filterMap (fun e =>
    match e with
    | Event.send _ v => some v
    | Event.challenge _ => none)

/-- Body of the loop of lines 51-53: read `perturbator[idx]` and send it. -/
def send_perturbator {F : Type} (perturbator : List F) (idx : Nat) (t : Transcript F) :
    Transcript F × Except Fault Unit :=
  match perturbator[idx]? with
  | none => (t, Except.error (Fault.out_of_bounds "perturbator" idx))
  | some coefficient =>
    (t.send_to_verifier ("perturbator_" ++ toString idx) (Value.field coefficient), Except.ok ())

/-- Body of the loop of lines 60-62:
`betas_star[idx] = betas[idx] + perturbator_challenge * deltas[idx - 1]`. -/
def set_beta_star {F : Type} [CommRing F] (perturbator_challenge : F) (betas deltas : List F)
    (idx : Nat) (betas_star : List F) : List F × Except Fault Unit :=
  match betas[idx]? with
  | none => (betas_star, Except.error (Fault.out_of_bounds "betas" idx))
  | some beta =>
    match deltas[idx - 1]? with
    | none => (betas_star, Except.error (Fault.out_of_bounds "deltas" (idx - 1)))
    | some delta_pow =>
      if idx < betas_star.length then
        (betas_star.set idx (beta + perturbator_challenge * delta_pow), Except.ok ())
      else (betas_star, Except.error (Fault.out_of_bounds "betas_star" idx))

/-- Lines 57-62: the vector `betas_star`. -/
def compute_betas_star {F : Type} [CommRing F] (log_instance_size : Nat)
    (perturbator_challenge : F) (betas deltas : List F) : List F × Except Fault Unit :=
  let betas_star : List F := List.replicate log_instance_size 0
  if 0 < betas_star.length then
    for_loop (set_beta_star perturbator_challenge betas deltas) (log_instance_size - 1) 1
      (betas_star.set 0 1)
  else (betas_star, Except.error (Fault.out_of_bounds "betas_star" 0))

/-- Body of the loop of lines 68-70: send `combiner_quotient.value_at(idx)`. -/
def send_combiner_quotient {F X U : Type} (P : Externals F X U) (combiner_quotient : U)
    (idx : Nat) (t : Transcript F) : Transcript F × Except Fault Unit :=
  (t.send_to_verifier ("combiner_quotient_" ++ toString idx)
    (Value.field (P.value_at combiner_quotient idx)), Except.ok ())

/-- `ProverFoldingResult`: the members assigned by `fold_instances`. -/
structure ProverFoldingResult (F : Type) where
  params : FoldingParameters F
  folding_data : List (Value F)
deriving DecidableEq, Repr

/-- The local variables of `fold_instances` when it reaches its `return`. -/
structure FoldLocals (F X U : Type) where
  instances : List (Instance F X)
  alpha : F
  delta : F
  accumulator : Instance F X
  instance_size : Nat
  log_instance_size : Nat
  deltas : List F
  perturbator : List F
  perturbator_challenge : F
  compressed_perturbator : F
  betas_star : List F
  betas : List F
  pow_betas_star : List F
  combiner : List F
  combiner_quotient : U
  combiner_challenge : F
  combiner_quotient_at_challenge : F
  vanishing_polynomial_at_challenge : F
  lagrange_0_at_challenge : F
  new_target_sum : F
deriving DecidableEq, Repr

/-- The body of `ProtoGalaxyProver_::fold_instances` (lines 41-77), returning its local
variables.  `NUM` is the template constant `ProverInstances::NUM`. -/
def fold_instances_locals {F X U : Type} [CommRing F] (P : Externals F X U) (NUM : Nat)
    (instances0 : List (Instance F X)) (t0 : Transcript F) :
    Transcript F × Except Fault (FoldLocals F X U) :=
  match prepare_for_folding P instances0 t0 with
  | (t1, Except.error e) => (t1, Except.error e)
  | (t1, Except.ok instances) =>
    let alpha := t1.get_challenge P.hash "alpha"
    let delta := alpha.2.get_challenge P.hash "delta"
    match get_accumulator instances with
    | Except.error e => (delta.2, Except.error e)
    | Except.ok accumulator =>
      match accumulator.prover_polynomials[0]? with
      | none => (delta.2, Except.error (Fault.out_of_bounds "prover_polynomials" 0))
      | some polynomial_0 =>
        let instance_size := polynomial_0.length
        let log_instance_size := get_msb instance_size
        let deltas := P.compute_round_challenge_pows log_instance_size delta.1
        let perturbator := P.compute_perturbator accumulator deltas alpha.1
        match for_loop (send_perturbator perturbator) (log_instance_size + 1) 0 delta.2 with
        | (t2, Except.error e) => (t2, Except.error e)
        | (t2, Except.ok _) =>
          let perturbator_challenge := t2.get_challenge P.hash "perturbator_challenge"
          let compressed_perturbator := polynomial_evaluate perturbator perturbator_challenge.1
          let betas := accumulator.folding_parameters.gate_separation_challenges
          match compute_betas_star log_instance_size perturbator_challenge.1 betas deltas with
          | (_, Except.error e) => (perturbator_challenge.2, Except.error e)
          | (betas_star, Except.ok _) =>
            let pow_betas_star := P.compute_pow_polynomial_at_values betas_star instance_size
            let combiner := P.compute_combiner instances pow_betas_star alpha.1
            let combiner_quotient := P.compute_combiner_quotient compressed_perturbator combiner
            match for_loop (send_combiner_quotient P combiner_quotient) (combiner.length - NUM)
                NUM perturbator_challenge.2 with
            | (t3, Except.error e) => (t3, Except.error e)
            | (t3, Except.ok _) =>
              let combiner_challenge := t3.get_challenge P.hash "combiner_qoutient_challenge"
              let combiner_quotient_at_challenge :=
                P.evaluate combiner_quotient combiner_challenge.1
              let vanishing_polynomial_at_challenge :=
                combiner_challenge.1 * (combiner_challenge.1 - 1)
              let lagrange_0_at_challenge := 1 - combiner_challenge.1
              let new_target_sum := compressed_perturbator * lagrange_0_at_challenge +
                vanishing_polynomial_at_challenge * combiner_quotient_at_challenge
              (combiner_challenge.2, Except.ok
                { instances := instances
                  alpha := alpha.1
                  delta := delta.1
                  accumulator := accumulator
                  instance_size := instance_size
                  log_instance_size := log_instance_size
                  deltas := deltas
                  perturbator := perturbator
                  perturbator_challenge := perturbator_challenge.1
                  compressed_perturbator := compressed_perturbator
                  betas_star := betas_star
                  betas := betas
                  pow_betas_star := pow_betas_star
                  combiner := combiner
                  combiner_quotient := combiner_quotient
                  combiner_challenge := combiner_challenge.1
                  combiner_quotient_at_challenge := combiner_quotient_at_challenge
                  vanishing_polynomial_at_challenge := vanishing_polynomial_at_challenge
                  lagrange_0_at_challenge := lagrange_0_at_challenge
                  new_target_sum := new_target_sum })

/-- Lines 94-99: the result built from the locals and the final transcript; the members whose
assignment is commented out keep their default (empty) value. -/
def folding_result {F X U : Type} (t : Transcript F) (L : FoldLocals F X U) :
    ProverFoldingResult F :=
  { params := { target_sum := L.new_target_sum, gate_separation_challenges := [] }
    folding_data := t.proof_data }

/-- `ProtoGalaxyProver_::fold_instances` (lines 39-100). -/
def fold_instances {F X U : Type} [CommRing F] (P : Externals F X U) (NUM : Nat)
    (instances : List (Instance F X)) (t0 : Transcript F) :
    Transcript F × Except Fault (ProverFoldingResult F) :=
  match fold_instances_locals P NUM instances t0 with
  | (t, Except.error e) => (t, Except.error e)
  | (t, Except.ok L) => (t, Except.ok (folding_result t L))

/-! ### Reading the transcript -/

/-- The messages sent to the verifier among `events`, in order. -/
def sent {F : Type} (events : List (Event F)) : List (String × Value F) :=
  events.filterMap (fun e =>
    match e with
    | Event.send label v => some (label, v)
    | Event.challenge _ => none)

/-- The events `msgs` as sends, in order. -/
def sends {F : Type} (msgs : List (String × Value F)) : List (Event F) :=
  msgs.map (fun m => Event.send m.1 m.2)

/-- The label `label` starts with the characters of `pre`. -/
def starts_with (pre label : String) : Bool := pre.data.isPrefixOf label.data

/-- The messages of `events` whose label starts with `pre`, in order. -/
def sent_with {F : Type} (pre : String) (events : List (Event F)) : List (String × Value F) :=
  (sent events).filter (fun m => starts_with pre m.1)

/-- The messages of the instance at index `idx`, in the order of §4.1: `circuit_size`,
`num_public_inputs`, `public_inputs_offset`, then `public_inputs[i]` for `i = 0..n-1`. -/
def instance_messages {F X : Type} [CommRing F] (idx : Nat) (inst : Instance F X) :
    List (String × Value F) :=
  [ (toString idx ++ "_circuit_size", Value.u32 (to_uint32 inst.proving_key.circuit_size)),
    (toString idx ++ "_public_input_size",
      Value.u32 (to_uint32 inst.proving_key.num_public_inputs)),
    (toString idx ++ "_pub_inputs_offset", Value.u32 (to_uint32 inst.pub_inputs_offset)) ] ++
  (List.range inst.proving_key.num_public_inputs).map (fun i =>
    (toString idx ++ "_public_input_" ++ toString i, Value.field (inst.public_inputs.getD i 0)))

/-- The events of the instance at index `idx`: its messages, then its three challenges. -/
def instance_events {F X : Type} [CommRing F] (idx : Nat) (inst : Instance F X) :
    List (Event F) :=
  (instance_messages idx inst).map (fun m => Event.send m.1 m.2) ++
  [ Event.challenge (toString idx ++ "_eta"), Event.challenge (toString idx ++ "_beta"),
    Event.challenge (toString idx ++ "_gamma") ]

/-- The `d + 1` perturbator messages `perturbator_0 .. perturbator_d`. -/
def perturbator_messages {F : Type} [CommRing F] (d : Nat) (perturbator : List F) :
    List (String × Value F) :=
  (List.range (d + 1)).map (fun i =>
    ("perturbator_" ++ toString i, Value.field (perturbator.getD i 0)))

/-- The combiner quotient messages for the indices `K ≤ i < n`, increasing. -/
def combiner_quotient_messages {F : Type} (value_at : Nat → F) (K n : Nat) :
    List (String × Value F) :=
  (List.range' K (n - K)).map (fun i =>
    ("combiner_quotient_" ++ toString i, Value.field (value_at i)))

/-- The events of `prepare_for_folding`: instance by instance in index order. -/
def preparation_events {F X U : Type} [CommRing F] (P : Externals F X U)
    (instances : List (Instance F X)) : List (Event F) :=
  (List.enum instances).flatMap (fun p =>
    instance_events p.1 (P.initialise_prover_polynomials p.2))

/-- The messages of `prepare_for_folding`: instance by instance in index order. -/
def preparation_messages {F X U : Type} [CommRing F] (P : Externals F X U)
    (instances : List (Instance F X)) : List (String × Value F) :=
  (List.enum instances).flatMap (fun p =>
    instance_messages p.1 (P.initialise_prover_polynomials p.2))

/-- The steps of a run of `fold_instances` that reaches its `return` with locals `L`: `t1`,
`t2`, `t3` are the transcript after `prepare_for_folding`, after the perturbator loop and after
the combiner quotient loop. -/
structure FoldSteps {F X U : Type} [CommRing F] (P : Externals F X U) (NUM : Nat)
    (instances0 : List (Instance F X)) (t0 t : Transcript F) (L : FoldLocals F X U)
    (t1 t2 t3 : Transcript F) (polynomial_0 : List F) : Prop where
  prepared : prepare_for_folding P instances0 t0 = (t1, Except.ok L.instances)
  alpha_eq : L.alpha = P.hash t1.events "alpha"
  delta_eq : L.delta = P.hash (t1.events ++ [Event.challenge "alpha"]) "delta"
  accumulator_eq : get_accumulator L.instances = Except.ok L.accumulator
  polynomial_0_eq : L.accumulator.prover_polynomials[0]? = some polynomial_0
  instance_size_eq : L.instance_size = polynomial_0.length
  log_instance_size_eq : L.log_instance_size = get_msb L.instance_size
  deltas_eq : L.deltas = P.compute_round_challenge_pows L.log_instance_size L.delta
  perturbator_eq : L.perturbator = P.compute_perturbator L.accumulator L.deltas L.alpha
  perturbator_sent : for_loop (send_perturbator L.perturbator) (L.log_instance_size + 1) 0
    ⟨t1.events ++ [Event.challenge "alpha"] ++ [Event.challenge "delta"]⟩ = (t2, Except.ok ())
  perturbator_challenge_eq : L.perturbator_challenge = P.hash t2.events "perturbator_challenge"
  compressed_perturbator_eq :
    L.compressed_perturbator = polynomial_evaluate L.perturbator L.perturbator_challenge
  betas_eq : L.betas = L.accumulator.folding_parameters.gate_separation_challenges
  betas_star_eq : compute_betas_star L.log_instance_size L.perturbator_challenge L.betas
    L.deltas = (L.betas_star, Except.ok ())
  pow_betas_star_eq :
    L.pow_betas_star = P.compute_pow_polynomial_at_values L.betas_star L.instance_size
  combiner_eq : L.combiner = P.compute_combiner L.instances L.pow_betas_star L.alpha
  combiner_quotient_eq :
    L.combiner_quotient = P.compute_combiner_quotient L.compressed_perturbator L.combiner
  combiner_quotient_sent : for_loop (send_combiner_quotient P L.combiner_quotient)
    (L.combiner.length - NUM) NUM ⟨t2.events ++ [Event.challenge "perturbator_challenge"]⟩ =
      (t3, Except.ok ())
  combiner_challenge_eq :
    L.combiner_challenge = P.hash t3.events "combiner_qoutient_challenge"
  combiner_quotient_at_challenge_eq :
    L.combiner_quotient_at_challenge = P.evaluate L.combiner_quotient L.combiner_challenge
  vanishing_eq :
    L.vanishing_polynomial_at_challenge = L.combiner_challenge * (L.combiner_challenge - 1)
  lagrange_0_eq : L.lagrange_0_at_challenge = 1 - L.combiner_challenge
  new_target_sum_eq : L.new_target_sum = L.compressed_perturbator * L.lagrange_0_at_challenge +
    L.vanishing_polynomial_at_challenge * L.combiner_quotient_at_challenge
  final : t.events = t3.events ++ [Event.challenge "combiner_qoutient_challenge"]


/-! ### Concrete runs over the integers -/

/-- Externals over the integers with simple values: the challenge is the number of events so
far, the perturbator has `d + 1` coefficients equal to `1`, the combiner has four entries. -/
def example_externals : Externals Int Unit (List Int) :=
  { hash := fun events _ => (events.length : Int)
    initialise_prover_polynomials := fun inst => inst
    compute_sorted_accumulator_polynomials := fun _ inst => inst
    compute_grand_product_polynomials := fun _ _ inst => inst
    fold_parameters := fun instances => instances
    compute_round_challenge_pows := fun d x => (List.range d).map (fun i => x ^ 2 ^ i)
    compute_perturbator := fun _ deltas _ => List.replicate (deltas.length + 1) 1
    compute_pow_polynomial_at_values := fun _ n => List.replicate n 1
    compute_combiner := fun _ _ _ => [0, 0, 1, 2]
    compute_combiner_quotient := fun _ g => g
    value_at := fun u i => u.getD i 0
    evaluate := fun _ _ => 3 }

/-- Externals of a fold in which every relation is satisfied: the perturbator has all its
coefficients `0` and the combiner quotient is `0` at every point. -/
def satisfied_externals : Externals Int Unit (List Int) :=
  { example_externals with
    compute_perturbator := fun _ deltas _ => List.replicate (deltas.length + 1) 0
    compute_combiner := fun _ _ _ => [0, 0, 0, 0]
    evaluate := fun _ _ => 0 }

/-- An instance with one public input and one polynomial of `circuit_size` entries. -/
def example_instance (circuit_size : Nat) (betas : List Int) : Instance Int Unit :=
  { proving_key := { circuit_size := circuit_size, num_public_inputs := 1 }
    pub_inputs_offset := 0
    public_inputs := [5]
    prover_polynomials := [List.replicate circuit_size 0]
    folding_parameters := { target_sum := 0, gate_separation_challenges := betas }
    other := () }

/-- Two instances of circuit size 4 (`d = 2`), two gate separation challenges each. -/
def example_instances : List (Instance Int Unit) :=
  [example_instance 4 [3, 4], example_instance 4 [3, 4]]

/-- The events of preparing `example_instances`, and the `alpha` and `delta` requests. -/
def example_preparation : List (Event Int) :=
  [ Event.send "0_circuit_size" (Value.u32 4), Event.send "0_public_input_size" (Value.u32 1),
    Event.send "0_pub_inputs_offset" (Value.u32 0), Event.send "0_public_input_0" (Value.field 5),
    Event.challenge "0_eta", Event.challenge "0_beta", Event.challenge "0_gamma",
    Event.send "1_circuit_size" (Value.u32 4), Event.send "1_public_input_size" (Value.u32 1),
    Event.send "1_pub_inputs_offset" (Value.u32 0), Event.send "1_public_input_0" (Value.field 5),
    Event.challenge "1_eta", Event.challenge "1_beta", Event.challenge "1_gamma" ]

/-- The transcript of folding `example_instances` with `example_externals`. -/
def example_transcript : Transcript Int :=
  ⟨example_preparation ++
    [ Event.challenge "alpha", Event.challenge "delta",
      Event.send "perturbator_0" (Value.field 1), Event.send "perturbator_1" (Value.field 1),
      Event.send "perturbator_2" (Value.field 1), Event.challenge "perturbator_challenge",
      Event.send "combiner_quotient_2" (Value.field 1),
      Event.send "combiner_quotient_3" (Value.field 2),
      Event.challenge "combiner_qoutient_challenge" ]⟩

/-- The locals of folding `example_instances` with `example_externals`. -/
def example_locals : FoldLocals Int Unit (List Int) :=
  { instances := example_instances
    alpha := 14
    delta := 15
    accumulator := example_instance 4 [3, 4]
    instance_size := 4
    log_instance_size := 2
    deltas := [15, 225]
    perturbator := [1, 1, 1]
    perturbator_challenge := 19
    compressed_perturbator := 381
    betas_star := [1, 289]
    betas := [3, 4]
    pow_betas_star := [1, 1, 1, 1]
    combiner := [0, 0, 1, 2]
    combiner_quotient := [0, 0, 1, 2]
    combiner_challenge := 22
    combiner_quotient_at_challenge := 3
    vanishing_polynomial_at_challenge := 462
    lagrange_0_at_challenge := -21
    new_target_sum := -6615 }

/-- The result of folding `example_instances` with `example_externals`. -/
def example_result : ProverFoldingResult Int :=
  { params := { target_sum := -6615, gate_separation_challenges := [] }
    folding_data :=
      [ Value.u32 4, Value.u32 1, Value.u32 0, Value.field 5, Value.u32 4, Value.u32 1,
        Value.u32 0, Value.field 5, Value.field 1, Value.field 1, Value.field 1, Value.field 1,
        Value.field 2 ] }

/-- The transcript of folding `example_instances` with `satisfied_externals`. -/
def satisfied_transcript : Transcript Int :=
  ⟨example_preparation ++
    [ Event.challenge "alpha", Event.challenge "delta",
      Event.send "perturbator_0" (Value.field 0), Event.send "perturbator_1" (Value.field 0),
      Event.send "perturbator_2" (Value.field 0), Event.challenge "perturbator_challenge",
      Event.send "combiner_quotient_2" (Value.field 0),
      Event.send "combiner_quotient_3" (Value.field 0),
      Event.challenge "combiner_qoutient_challenge" ]⟩

/-- The locals of folding `example_instances` with `satisfied_externals`. -/
def satisfied_locals : FoldLocals Int Unit (List Int) :=
  { example_locals with
    perturbator := [0, 0, 0]
    compressed_perturbator := 0
    combiner := [0, 0, 0, 0]
    combiner_quotient := [0, 0, 0, 0]
    combiner_quotient_at_challenge := 0
    new_target_sum := 0 }

/-- Two instances of circuit size 1 (`d = 0`). -/
def trivial_instances : List (Instance Int Unit) :=
  [example_instance 1 [], example_instance 1 []]

/-- The events of preparing `trivial_instances`. -/
def trivial_preparation : List (Event Int) :=
  [ Event.send "0_circuit_size" (Value.u32 1), Event.send "0_public_input_size" (Value.u32 1),
    Event.send "0_pub_inputs_offset" (Value.u32 0), Event.send "0_public_input_0" (Value.field 5),
    Event.challenge "0_eta", Event.challenge "0_beta", Event.challenge "0_gamma",
    Event.send "1_circuit_size" (Value.u32 1), Event.send "1_public_input_size" (Value.u32 1),
    Event.send "1_pub_inputs_offset" (Value.u32 0), Event.send "1_public_input_0" (Value.field 5),
    Event.challenge "1_eta", Event.challenge "1_beta", Event.challenge "1_gamma" ]

/-- Two instances of circuit size 4 whose accumulator has a single gate separation
challenge, one fewer than `d = 2`. -/
def short_betas_instances : List (Instance Int Unit) :=
  [example_instance 4 [3], example_instance 4 [3, 4]]

end ProtoGalaxy

/-! ### The AvmMini flavor: the slots of `AllEntities`

`AvmMiniFlavorBase::AllEntities` (`barretenberg/honk/flavor/generated/AvmMini_flavor.hpp`) is an
array `_data` of `NUM_ALL_ENTITIES` slots; each member is a reference `std::get<i>(_data)` to
one slot, and each getter returns handles to the members it lists. -/

namespace AvmMiniFlavor

/-- `NUM_ALL_ENTITIES` (line 41). -/
def NUM_ALL_ENTITIES : Nat := 15

/-- The members of `AllEntities` (lines 96-111). -/
inductive Entity where
  | avmMini_clk
  | avmMini_positive
  | avmMini_first
  | avmMini_subop
  | avmMini_inter_idx
  | avmMini_mem_idx
  | avmMini_last
  | avmMini_m_clk
  | avmMini_m_addr
  | avmMini_m_val
  | avmMini_m_lastAccess
  | avmMini_m_rw
  | avmMini_m_val_shift
  | avmMini_m_rw_shift
  | avmMini_m_addr_shift
deriving DecidableEq, Repr

/-- The slot a member refers to: the `i` of its `std::get<i>(this->_data)` (lines 96-111). -/
def Entity.slot : Entity → Nat
  | Entity.avmMini_clk => 0
  | Entity.avmMini_positive => 1
  | Entity.avmMini_first => 2
  | Entity.avmMini_subop => 3
  | Entity.avmMini_inter_idx => 4
  | Entity.avmMini_mem_idx => 5
  | Entity.avmMini_last => 6
  | Entity.avmMini_m_clk => 7
  | Entity.avmMini_m_addr => 8
  | Entity.avmMini_m_val => 9
  | Entity.avmMini_m_lastAccess => 10
  | Entity.avmMini_m_rw => 11
  | Entity.avmMini_m_val_shift => 12
  | Entity.avmMini_m_rw_shift => 13
  | Entity.avmMini_m_addr_shift => 14

/-- The identifier of a member in the source (lines 96-111). -/
def Entity.member_name : Entity → String
  | Entity.avmMini_clk => "avmMini_clk"
  | Entity.avmMini_positive => "avmMini_positive"
  | Entity.avmMini_first => "avmMini_first"
  | Entity.avmMini_subop => "avmMini_subop"
  | Entity.avmMini_inter_idx => "avmMini_inter_idx"
  | Entity.avmMini_mem_idx => "avmMini_mem_idx"
  | Entity.avmMini_last => "avmMini_last"
  | Entity.avmMini_m_clk => "avmMini_m_clk"
  | Entity.avmMini_m_addr => "avmMini_m_addr"
  | Entity.avmMini_m_val => "avmMini_m_val"
  | Entity.avmMini_m_lastAccess => "avmMini_m_lastAccess"
  | Entity.avmMini_m_rw => "avmMini_m_rw"
  | Entity.avmMini_m_val_shift => "avmMini_m_val_shift"
  | Entity.avmMini_m_rw_shift => "avmMini_m_rw_shift"
  | Entity.avmMini_m_addr_shift => "avmMini_m_addr_shift"

/-- `AllEntities::get_wires()` (lines 113-121). -/
def get_wires : List Entity :=
  [ Entity.avmMini_clk, Entity.avmMini_positive, Entity.avmMini_first, Entity.avmMini_subop,
    Entity.avmMini_inter_idx, Entity.avmMini_mem_idx, Entity.avmMini_last,
    Entity.avmMini_m_clk, Entity.avmMini_m_addr, Entity.avmMini_m_val,
    Entity.avmMini_m_lastAccess, Entity.avmMini_m_rw, Entity.avmMini_m_val,
    Entity.avmMini_m_rw, Entity.avmMini_m_addr ]

/-- `AllEntities::get_unshifted()` (lines 123-130). -/
def get_unshifted : List Entity :=
  [ Entity.avmMini_clk, Entity.avmMini_positive, Entity.avmMini_first, Entity.avmMini_subop,
    Entity.avmMini_inter_idx, Entity.avmMini_mem_idx, Entity.avmMini_last,
    Entity.avmMini_m_clk, Entity.avmMini_m_addr, Entity.avmMini_m_val,
    Entity.avmMini_m_lastAccess, Entity.avmMini_m_rw ]

/-- `AllEntities::get_to_be_shifted()` (lines 132-140). -/
def get_to_be_shifted : List Entity :=
  [ Entity.avmMini_m_val, Entity.avmMini_m_rw, Entity.avmMini_m_addr ]

/-- `AllEntities::get_shifted()` (lines 142-150). -/
def get_shifted : List Entity :=
  [ Entity.avmMini_m_val_shift, Entity.avmMini_m_rw_shift, Entity.avmMini_m_addr_shift ]

end AvmMiniFlavor

namespace ProtoGalaxy

/-! ## Loops -/

theorem for_loop_append_events {F : Type}
    (body : Nat → Transcript F → Transcript F × Except Fault Unit) (msg : Nat → Event F) :
    ∀ (n start : Nat) (t : Transcript F),
      (∀ i s, start ≤ i → i < start + n → body i s = (⟨s.events ++ [msg i]⟩, Except.ok ())) →
      for_loop body n start t = (⟨t.events ++ (List.range' start n).map msg⟩, Except.ok ()) := by
  intro n
  induction n with
  | zero => intro start t _; simp [for_loop]
  | succ n ih =>
    intro start t hbody
    have h0 := hbody start t (Nat.le_refl _) (by omega)
    have ih1 := ih (start + 1) ⟨t.events ++ [msg start]⟩
      (fun i s h1 h2 => hbody i s (by omega) (by omega))
    simp only [for_loop, h0, ih1, List.range'_succ, List.map_cons, List.append_assoc,
      List.singleton_append]

/-- A loop that reads `xs[i]` and sends it: when it ends without fault every index was in
bounds and the messages were appended in increasing order. -/
theorem read_send_loop_inv {F : Type} [CommRing F] (xs : List F) (name : String)
    (lbl : Nat → String) (body : Nat → Transcript F → Transcript F × Except Fault Unit)
    (hbody : ∀ i s, body i s =
      match xs[i]? with
      | none => (s, Except.error (Fault.out_of_bounds name i))
      | some c => (s.send_to_verifier (lbl i) (Value.field c), Except.ok ())) :
    ∀ (n start : Nat) (t t1 : Transcript F) (u : Unit),
      for_loop body n start t = (t1, Except.ok u) →
      (∀ i, start ≤ i → i < start + n → i < xs.length) ∧
      t1.events = t.events ++ (List.range' start n).map (fun i =>
        Event.send (lbl i) (Value.field (xs.getD i 0))) := by
  intro n
  induction n with
  | zero =>
    intro start t t1 u h
    simp [for_loop] at h
    subst h
    exact ⟨fun i h1 h2 => by omega, by simp⟩
  | succ n ih =>
    intro start t t1 u h
    rw [for_loop, hbody] at h
    cases hp : xs[start]? with
    | none => simp [hp] at h
    | some c =>
      simp only [hp] at h
      obtain ⟨hb, he⟩ := ih (start + 1) _ t1 u h
      have hlt : start < xs.length := by
        rcases List.getElem?_eq_some.1 hp with ⟨hlt, _⟩
        exact hlt
      refine ⟨fun i h1 h2 => ?_, ?_⟩
      · rcases Nat.eq_or_lt_of_le h1 with h3 | h3
        · omega
        · exact hb i (by omega) (by omega)
      · have hc : xs.getD start 0 = c := by
          simp [List.getD, hp]
        simp only [he, Transcript.send_to_verifier, List.range'_succ, List.map_cons, hc,
          List.append_assoc, List.singleton_append]

/-- A loop that reads `xs[i]` and sends it runs to its end when every index is in bounds. -/
theorem read_send_loop_ok {F : Type} [CommRing F] (xs : List F) (name : String)
    (lbl : Nat → String) (body : Nat → Transcript F → Transcript F × Except Fault Unit)
    (hbody : ∀ i s, body i s =
      match xs[i]? with
      | none => (s, Except.error (Fault.out_of_bounds name i))
      | some c => (s.send_to_verifier (lbl i) (Value.field c), Except.ok ()))
    (n start : Nat) (t : Transcript F) (hin : ∀ i, start ≤ i → i < start + n → i < xs.length) :
    for_loop body n start t = (⟨t.events ++ (List.range' start n).map (fun i =>
        Event.send (lbl i) (Value.field (xs.getD i 0)))⟩, Except.ok ()) := by
  apply for_loop_append_events
  intro i s h1 h2
  have hlt := hin i h1 h2
  rw [hbody]
  have hp : xs[i]? = some (xs.getD i 0) := by
    simp [List.getD, List.getElem?_eq_getElem hlt]
  rw [hp]
  rfl

/-! ## Instance preparation -/

theorem send_public_input_eq {F X : Type} (ds : String) (inst : Instance F X) (i : Nat)
    (s : Transcript F) : send_public_input ds inst i s =
      match inst.public_inputs[i]? with
      | none => (s, Except.error (Fault.out_of_bounds "public_inputs" i))
      | some c => (s.send_to_verifier (ds ++ "_public_input_" ++ toString i) (Value.field c),
          Except.ok ()) := rfl

theorem instance_events_eq {F X : Type} [CommRing F] (idx : Nat) (inst : Instance F X) :
    instance_events idx inst =
      [ Event.send (toString idx ++ "_circuit_size")
          (Value.u32 (to_uint32 inst.proving_key.circuit_size)),
        Event.send (toString idx ++ "_public_input_size")
          (Value.u32 (to_uint32 inst.proving_key.num_public_inputs)),
        Event.send (toString idx ++ "_pub_inputs_offset")
          (Value.u32 (to_uint32 inst.pub_inputs_offset)) ] ++
      (List.range' 0 inst.proving_key.num_public_inputs).map (fun i =>
        Event.send (toString idx ++ "_public_input_" ++ toString i)
          (Value.field (inst.public_inputs.getD i 0))) ++
      [ Event.challenge (toString idx ++ "_eta"), Event.challenge (toString idx ++ "_beta"),
        Event.challenge (toString idx ++ "_gamma") ] := by
  simp [instance_events, instance_messages, List.range_eq_range', Function.comp_def]

/-- One instance prepared without fault: its public inputs were all in bounds and its events
were appended to the transcript. -/
theorem prepare_instance_inv {F X U : Type} [CommRing F] (P : Externals F X U) (idx : Nat)
    (inst0 inst2 : Instance F X) (t t1 : Transcript F)
    (h : prepare_instance P idx inst0 t = (t1, Except.ok inst2)) :
    (P.initialise_prover_polynomials inst0).proving_key.num_public_inputs ≤
      (P.initialise_prover_polynomials inst0).public_inputs.length ∧
    t1.events = t.events ++ instance_events idx (P.initialise_prover_polynomials inst0) := by
  unfold prepare_instance at h
  simp only [] at h
  split at h
  · simp at h
  · rename_i t4 u hl
    obtain ⟨hb, he⟩ := read_send_loop_inv _ "public_inputs" _ _
      (send_public_input_eq (toString idx) (P.initialise_prover_polynomials inst0)) _ _ _ _ _ hl
    simp only [Prod.mk.injEq, Except.ok.injEq] at h
    refine ⟨?_, ?_⟩
    · by_contra hlt
      have := hb (P.initialise_prover_polynomials inst0).public_inputs.length (Nat.zero_le _)
        (by omega)
      omega
    · rw [← h.1, instance_events_eq]
      simp only [Transcript.get_challenge, he, Transcript.send_to_verifier, List.append_assoc,
        List.singleton_append, List.cons_append, List.nil_append]

/-- One instance whose public inputs are in bounds is prepared without fault. -/
theorem prepare_instance_ok {F X U : Type} [CommRing F] (P : Externals F X U) (idx : Nat)
    (inst0 : Instance F X) (t : Transcript F)
    (hin : (P.initialise_prover_polynomials inst0).proving_key.num_public_inputs ≤
      (P.initialise_prover_polynomials inst0).public_inputs.length) :
    ∃ inst2, prepare_instance P idx inst0 t =
      (⟨t.events ++ instance_events idx (P.initialise_prover_polynomials inst0)⟩,
        Except.ok inst2) := by
  have hl := read_send_loop_ok _ "public_inputs" _ _
    (send_public_input_eq (toString idx) (P.initialise_prover_polynomials inst0))
    (P.initialise_prover_polynomials inst0).proving_key.num_public_inputs 0
    (((t.send_to_verifier (toString idx ++ "_circuit_size")
        (Value.u32 (to_uint32 (P.initialise_prover_polynomials inst0).proving_key.circuit_size))).send_to_verifier
      (toString idx ++ "_public_input_size")
        (Value.u32 (to_uint32 (P.initialise_prover_polynomials inst0).proving_key.num_public_inputs))).send_to_verifier
      (toString idx ++ "_pub_inputs_offset")
        (Value.u32 (to_uint32 (P.initialise_prover_polynomials inst0).pub_inputs_offset)))
    (fun i _ h2 => by omega)
  unfold prepare_instance
  simp only [hl]
  refine ⟨_, Prod.ext ?_ rfl⟩
  rw [instance_events_eq]
  simp only [Transcript.get_challenge, Transcript.send_to_verifier, List.append_assoc,
    List.singleton_append, List.cons_append, List.nil_append]

theorem preparation_events_from {F X U : Type} [CommRing F] (P : Externals F X U)
    (inst : Instance F X) (rest : List (Instance F X)) (idx : Nat) :
    (List.enumFrom idx (inst :: rest)).flatMap (fun p =>
      instance_events p.1 (P.initialise_prover_polynomials p.2)) =
    instance_events idx (P.initialise_prover_polynomials inst) ++
      (List.enumFrom (idx + 1) rest).flatMap (fun p =>
        instance_events p.1 (P.initialise_prover_polynomials p.2)) := by
  simp [List.enumFrom_cons]

/-- The loop over the instances ended without fault: every instance had its public inputs in
bounds and the events were appended instance by instance. -/
theorem prepare_instances_inv {F X U : Type} [CommRing F] (P : Externals F X U) :
    ∀ (instances prepared : List (Instance F X)) (idx : Nat) (t t1 : Transcript F),
      prepare_instances P instances idx t = (t1, Except.ok prepared) →
      (∀ inst ∈ instances,
        (P.initialise_prover_polynomials inst).proving_key.num_public_inputs ≤
          (P.initialise_prover_polynomials inst).public_inputs.length) ∧
      t1.events = t.events ++ (List.enumFrom idx instances).flatMap (fun p =>
        instance_events p.1 (P.initialise_prover_polynomials p.2)) := by
  intro instances
  induction instances with
  | nil =>
    intro prepared idx t t1 h
    simp [prepare_instances] at h
    simp [h.1]
  | cons inst rest ih =>
    intro prepared idx t t1 h
    rw [prepare_instances] at h
    split at h
    · simp at h
    · rename_i t2 inst1 h1
      split at h
      · simp at h
      · rename_i t3 rest1 h2
        simp only [Prod.mk.injEq, Except.ok.injEq] at h
        obtain ⟨hb1, he1⟩ := prepare_instance_inv P idx inst inst1 t t2 h1
        obtain ⟨hb2, he2⟩ := ih rest1 (idx + 1) t2 t3 h2
        refine ⟨?_, ?_⟩
        · intro i hi
          rcases List.mem_cons.1 hi with rfl | hi
          · exact hb1
          · exact hb2 i hi
        · rw [← h.1, he2, he1, preparation_events_from, List.append_assoc]

/-- The loop over the instances runs to its end when every instance has its public inputs in
bounds. -/
theorem prepare_instances_ok {F X U : Type} [CommRing F] (P : Externals F X U) :
    ∀ (instances : List (Instance F X)) (idx : Nat) (t : Transcript F),
      (∀ inst ∈ instances,
        (P.initialise_prover_polynomials inst).proving_key.num_public_inputs ≤
          (P.initialise_prover_polynomials inst).public_inputs.length) →
      ∃ prepared, prepare_instances P instances idx t =
        (⟨t.events ++ (List.enumFrom idx instances).flatMap (fun p =>
          instance_events p.1 (P.initialise_prover_polynomials p.2))⟩, Except.ok prepared) := by
  intro instances
  induction instances with
  | nil => intro idx t _; exact ⟨[], by simp [prepare_instances]⟩
  | cons inst rest ih =>
    intro idx t hin
    obtain ⟨inst2, h1⟩ := prepare_instance_ok P idx inst t (hin inst (List.mem_cons_self _ _))
    obtain ⟨rest1, h2⟩ := ih (idx + 1)
      ⟨t.events ++ instance_events idx (P.initialise_prover_polynomials inst)⟩
      (fun i hi => hin i (List.mem_cons_of_mem _ hi))
    refine ⟨inst2 :: rest1, ?_⟩
    rw [prepare_instances]
    simp only [h1, h2, preparation_events_from, List.append_assoc]

/-- `prepare_for_folding` ended without fault: bounds and events. -/
theorem prepare_for_folding_inv {F X U : Type} [CommRing F] (P : Externals F X U)
    (instances prepared : List (Instance F X)) (t t1 : Transcript F)
    (h : prepare_for_folding P instances t = (t1, Except.ok prepared)) :
    (∀ inst ∈ instances,
      (P.initialise_prover_polynomials inst).proving_key.num_public_inputs ≤
        (P.initialise_prover_polynomials inst).public_inputs.length) ∧
    t1.events = t.events ++ preparation_events P instances := by
  unfold prepare_for_folding at h
  split at h
  · simp at h
  · rename_i t2 l hl
    simp only [Prod.mk.injEq, Except.ok.injEq] at h
    rw [← h.1]
    exact prepare_instances_inv P instances l 0 t t2 hl

/-- `prepare_for_folding` runs to its end when every instance has its public inputs in
bounds. -/
theorem prepare_for_folding_ok {F X U : Type} [CommRing F] (P : Externals F X U)
    (instances : List (Instance F X)) (t : Transcript F)
    (hin : ∀ inst ∈ instances,
      (P.initialise_prover_polynomials inst).proving_key.num_public_inputs ≤
        (P.initialise_prover_polynomials inst).public_inputs.length) :
    ∃ prepared, prepare_for_folding P instances t =
      (⟨t.events ++ preparation_events P instances⟩, Except.ok prepared) := by
  obtain ⟨l, hl⟩ := prepare_instances_ok P instances 0 t hin
  refine ⟨P.fold_parameters l, ?_⟩
  unfold prepare_for_folding
  simp only [hl]
  rfl


/-! ## The vector `betas_star` -/

/-- The loop of lines 60-62 ended without fault: the length is kept, the entries below `start`
are kept, and every entry of the range was read in bounds and written. -/
theorem set_beta_star_loop_inv {F : Type} [CommRing F] (pc : F) (betas deltas : List F) :
    ∀ (n start : Nat) (bs bs1 : List F) (u : Unit),
      for_loop (set_beta_star pc betas deltas) n start bs = (bs1, Except.ok u) →
      bs1.length = bs.length ∧
      (∀ j, j < start → bs1[j]? = bs[j]?) ∧
      (∀ i, start ≤ i → i < start + n → i < bs.length ∧
        ∃ b dl, betas[i]? = some b ∧ deltas[i - 1]? = some dl ∧
          bs1[i]? = some (b + pc * dl)) := by
  intro n
  induction n with
  | zero =>
    intro start bs bs1 u h
    simp [for_loop] at h
    subst h
    exact ⟨rfl, fun _ _ => rfl, fun i h1 h2 => by omega⟩
  | succ n ih =>
    intro start bs bs1 u h
    rw [for_loop] at h
    unfold set_beta_star at h
    cases hb : betas[start]? with
    | none => simp [hb] at h
    | some b =>
      cases hd : deltas[start - 1]? with
      | none => simp [hb, hd] at h
      | some dl =>
        by_cases hlt : start < bs.length
        · simp only [hb, hd, hlt, if_true] at h
          obtain ⟨hlen, hkeep, hrange⟩ := ih (start + 1) _ bs1 u h
          rw [List.length_set] at hlen
          refine ⟨hlen, ?_, ?_⟩
          · intro j hj
            rw [hkeep j (by omega), List.getElem?_set_ne (by omega)]
          · intro i h1 h2
            rcases Nat.eq_or_lt_of_le h1 with h3 | h3
            · subst h3
              refine ⟨hlt, b, dl, hb, hd, ?_⟩
              rw [hkeep start (by omega), List.getElem?_set_self hlt]
            · obtain ⟨h4, h5⟩ := hrange i (by omega) (by omega)
              rw [List.length_set] at h4
              exact ⟨h4, h5⟩
        · simp [hb, hd, hlt] at h

/-- One iteration of the loop of lines 60-62 with its reads and its write in bounds. -/
theorem set_beta_star_in_bounds {F : Type} [CommRing F] (pc : F) (betas deltas : List F)
    (idx : Nat) (bs : List F) (h1 : idx < betas.length) (h2 : idx - 1 < deltas.length)
    (h3 : idx < bs.length) :
    set_beta_star pc betas deltas idx bs =
      (bs.set idx (betas[idx] + pc * deltas[idx - 1]), Except.ok ()) := by
  unfold set_beta_star
  simp only [List.getElem?_eq_getElem h1, List.getElem?_eq_getElem h2, h3, if_true]

/-- The loop of lines 60-62 runs to its end when all its reads and writes are in bounds. -/
theorem set_beta_star_loop_ok {F : Type} [CommRing F] (pc : F) (betas deltas : List F) :
    ∀ (n start : Nat) (bs : List F),
      (∀ i, start ≤ i → i < start + n →
        i < betas.length ∧ i - 1 < deltas.length ∧ i < bs.length) →
      ∃ bs1, for_loop (set_beta_star pc betas deltas) n start bs = (bs1, Except.ok ()) := by
  intro n
  induction n with
  | zero => intro start bs _; exact ⟨bs, rfl⟩
  | succ n ih =>
    intro start bs hin
    obtain ⟨h1, h2, h3⟩ := hin start (Nat.le_refl _) (by omega)
    obtain ⟨bs1, hbs1⟩ := ih (start + 1)
      (bs.set start (betas[start] + pc * deltas[start - 1]))
      (fun i hi1 hi2 => by
        obtain ⟨g1, g2, g3⟩ := hin i (by omega) (by omega)
        exact ⟨g1, g2, by rw [List.length_set]; exact g3⟩)
    refine ⟨bs1, ?_⟩
    rw [for_loop, set_beta_star_in_bounds pc betas deltas start bs h1 h2 h3]
    exact hbs1

/-- The loop of lines 60-62 faults at the first index `k` where `betas` ends, when everything
before `k` is in bounds. -/
theorem set_beta_star_loop_fault {F : Type} [CommRing F] (pc : F) (betas deltas : List F)
    (k : Nat) (hk : betas.length ≤ k) :
    ∀ (n start : Nat) (bs : List F), start ≤ k → k < start + n →
      (∀ i, start ≤ i → i < k →
        i < betas.length ∧ i - 1 < deltas.length ∧ i < bs.length) →
      ∃ bs1, for_loop (set_beta_star pc betas deltas) n start bs =
        (bs1, Except.error (Fault.out_of_bounds "betas" k)) := by
  intro n
  induction n with
  | zero => intro start bs h1 h2 _; omega
  | succ n ih =>
    intro start bs h1 h2 hin
    rcases Nat.eq_or_lt_of_le h1 with h3 | h3
    · subst h3
      refine ⟨bs, ?_⟩
      rw [for_loop]
      unfold set_beta_star
      simp only [List.getElem?_eq_none hk]
    · obtain ⟨g1, g2, g3⟩ := hin start (Nat.le_refl _) h3
      obtain ⟨bs1, hbs1⟩ := ih (start + 1)
        (bs.set start (betas[start] + pc * deltas[start - 1])) (by omega) (by omega)
        (fun i hi1 hi2 => by
          obtain ⟨e1, e2, e3⟩ := hin i (by omega) hi2
          exact ⟨e1, e2, by rw [List.length_set]; exact e3⟩)
      refine ⟨bs1, ?_⟩
      rw [for_loop, set_beta_star_in_bounds pc betas deltas start bs g1 g2 g3]
      exact hbs1

/-- Lines 57-62 ended without fault: `betas_star` has `d ≥ 1` entries, the first is `1`, and
entry `i` for `1 ≤ i < d` is `betas[i] + perturbator_challenge * deltas[i - 1]`, both reads in
bounds. -/
theorem compute_betas_star_inv {F : Type} [CommRing F] (d : Nat) (pc : F)
    (betas deltas bs : List F) (u : Unit)
    (h : compute_betas_star d pc betas deltas = (bs, Except.ok u)) :
    0 < d ∧ bs.length = d ∧ bs[0]? = some 1 ∧
    ∀ i, 1 ≤ i → i < d →
      ∃ b dl, betas[i]? = some b ∧ deltas[i - 1]? = some dl ∧ bs[i]? = some (b + pc * dl) := by
  unfold compute_betas_star at h
  simp only [List.length_replicate] at h
  by_cases hd : 0 < d
  · simp only [hd, if_true] at h
    obtain ⟨hlen, hkeep, hrange⟩ := set_beta_star_loop_inv pc betas deltas _ _ _ _ _ h
    rw [List.length_set, List.length_replicate] at hlen
    refine ⟨hd, hlen, ?_, ?_⟩
    · rw [hkeep 0 (by omega), List.getElem?_set_self (by simpa using hd)]
    · intro i h1 h2
      exact (hrange i h1 (by omega)).2
  · simp [hd] at h

/-- Lines 57-62 run to their end when `d ≥ 1`, `betas` has at least `d` entries and `deltas`
at least `d - 1`. -/
theorem compute_betas_star_ok {F : Type} [CommRing F] (d : Nat) (pc : F)
    (betas deltas : List F) (hd : 0 < d) (hb : d ≤ betas.length) (hdl : d - 1 ≤ deltas.length) :
    ∃ bs, compute_betas_star d pc betas deltas = (bs, Except.ok ()) := by
  unfold compute_betas_star
  simp only [List.length_replicate, hd, if_true]
  apply set_beta_star_loop_ok
  intro i h1 h2
  refine ⟨by omega, by omega, ?_⟩
  rw [List.length_set, List.length_replicate]
  omega

/-- Lines 57-62 fault on the read of `betas` when `betas` is shorter than `d`, `d ≥ 2` and
`deltas` has at least `d - 1` entries. -/
theorem compute_betas_star_fault {F : Type} [CommRing F] (d : Nat) (pc : F)
    (betas deltas : List F) (hd : 2 ≤ d) (hb : betas.length < d) (hdl : d - 1 ≤ deltas.length) :
    ∃ bs, compute_betas_star d pc betas deltas =
      (bs, Except.error (Fault.out_of_bounds "betas" (max 1 betas.length))) := by
  unfold compute_betas_star
  have hd0 : 0 < d := by omega
  simp only [List.length_replicate, hd0, if_true]
  apply set_beta_star_loop_fault pc betas deltas (max 1 betas.length) (by omega) (d - 1) 1 _
    (by omega) (by omega)
  intro i h1 h2
  refine ⟨by omega, by omega, ?_⟩
  rw [List.length_set, List.length_replicate]
  omega


/-! ## The steps of `fold_instances` -/

/-- A run of `fold_instances` that reaches its `return` went through every step. -/
theorem fold_instances_locals_inv {F X U : Type} [CommRing F] (P : Externals F X U) (NUM : Nat)
    (instances0 : List (Instance F X)) (t0 t : Transcript F) (L : FoldLocals F X U)
    (h : fold_instances_locals P NUM instances0 t0 = (t, Except.ok L)) :
    ∃ t1 t2 t3 polynomial_0, FoldSteps P NUM instances0 t0 t L t1 t2 t3 polynomial_0 := by
  unfold fold_instances_locals at h
  split at h
  · simp at h
  · rename_i t1 instances hprep
    simp only [] at h
    split at h
    · simp at h
    · rename_i accumulator hacc
      split at h
      · simp at h
      · rename_i polynomial_0 hpoly
        split at h
        · simp at h
        · rename_i t2 u2 hpert
          split at h
          · simp at h
          · rename_i betas_star u3 hbetas
            split at h
            · simp at h
            · rename_i t3 u4 hquot
              simp only [Prod.mk.injEq, Except.ok.injEq] at h
              obtain ⟨ht, hL⟩ := h
              subst hL
              subst ht
              exact ⟨t1, t2, t3, polynomial_0,
                { prepared := hprep
                  alpha_eq := rfl
                  delta_eq := rfl
                  accumulator_eq := hacc
                  polynomial_0_eq := hpoly
                  instance_size_eq := rfl
                  log_instance_size_eq := rfl
                  deltas_eq := rfl
                  perturbator_eq := rfl
                  perturbator_sent := by simpa [Transcript.get_challenge] using hpert
                  perturbator_challenge_eq := rfl
                  compressed_perturbator_eq := rfl
                  betas_eq := rfl
                  betas_star_eq := hbetas
                  pow_betas_star_eq := rfl
                  combiner_eq := rfl
                  combiner_quotient_eq := rfl
                  combiner_quotient_sent := hquot
                  combiner_challenge_eq := rfl
                  combiner_quotient_at_challenge_eq := rfl
                  vanishing_eq := rfl
                  lagrange_0_eq := rfl
                  new_target_sum_eq := rfl
                  final := rfl }⟩


theorem send_perturbator_eq {F : Type} (perturbator : List F) (i : Nat) (s : Transcript F) :
    send_perturbator perturbator i s =
      match perturbator[i]? with
      | none => (s, Except.error (Fault.out_of_bounds "perturbator" i))
      | some c => (s.send_to_verifier ("perturbator_" ++ toString i) (Value.field c),
          Except.ok ()) := rfl

theorem get_msb_halving_two_pow (d : Nat) : ∀ fuel, d ≤ fuel → get_msb_halving fuel (2 ^ d) = d := by
  induction d with
  | zero =>
    intro fuel _
    cases fuel with
    | zero => rfl
    | succ f => simp [get_msb_halving]
  | succ d ih =>
    intro fuel hf
    cases fuel with
    | zero => omega
    | succ f =>
      have h2 : 2 ≤ 2 ^ (d + 1) := by
        have := Nat.one_le_two_pow (n := d)
        rw [Nat.pow_succ]
        omega
      have h3 : 2 ^ (d + 1) / 2 = 2 ^ d := by
        rw [Nat.pow_succ]
        exact Nat.mul_div_cancel _ (by decide)
      rw [get_msb_halving]
      simp only [h2, if_true, h3]
      rw [ih f (by omega)]

/-- The most significant bit of `2 ^ d` is bit `d`. -/
theorem get_msb_two_pow (d : Nat) : get_msb (2 ^ d) = d := by
  unfold get_msb
  exact get_msb_halving_two_pow d _ (Nat.le_of_lt (Nat.lt_two_pow d))

/-- The combiner quotient loop never faults: it appends its messages. -/
theorem send_combiner_quotient_loop {F X U : Type} (P : Externals F X U) (q : U)
    (n start : Nat) (t : Transcript F) :
    for_loop (send_combiner_quotient P q) n start t =
      (⟨t.events ++ (List.range' start n).map (fun i =>
        Event.send ("combiner_quotient_" ++ toString i) (Value.field (P.value_at q i)))⟩,
        Except.ok ()) :=
  for_loop_append_events _ _ n start t (fun _ _ _ _ => rfl)

/-- The events of a run of `fold_instances` that reaches its `return`, and the bound on the
perturbator reads. -/
theorem fold_steps_events {F X U : Type} [CommRing F] (P : Externals F X U) (NUM : Nat)
    (instances0 : List (Instance F X)) (t0 t : Transcript F) (L : FoldLocals F X U)
    (t1 t2 t3 : Transcript F) (polynomial_0 : List F)
    (S : FoldSteps P NUM instances0 t0 t L t1 t2 t3 polynomial_0) :
    L.log_instance_size + 1 ≤ L.perturbator.length ∧
    t1.events = t0.events ++ preparation_events P instances0 ∧
    t2.events = t1.events ++ [Event.challenge "alpha", Event.challenge "delta"] ++
      (perturbator_messages L.log_instance_size L.perturbator).map
        (fun m => Event.send m.1 m.2) ∧
    t3.events = t2.events ++ [Event.challenge "perturbator_challenge"] ++
      (combiner_quotient_messages (P.value_at L.combiner_quotient) NUM L.combiner.length).map
        (fun m => Event.send m.1 m.2) ∧
    t.events = t3.events ++ [Event.challenge "combiner_qoutient_challenge"] := by
  obtain ⟨_, he1⟩ := prepare_for_folding_inv P instances0 L.instances t0 t1 S.prepared
  obtain ⟨hb2, he2⟩ := read_send_loop_inv L.perturbator "perturbator"
    (fun i => "perturbator_" ++ toString i) _ (send_perturbator_eq L.perturbator) _ _ _ _ _
    S.perturbator_sent
  have he3 := S.combiner_quotient_sent
  rw [send_combiner_quotient_loop] at he3
  simp only [Prod.mk.injEq, and_true] at he3
  refine ⟨?_, he1, ?_, ?_, S.final⟩
  · have := hb2 L.log_instance_size (Nat.zero_le _) (by omega)
    omega
  · rw [he2]
    simp [perturbator_messages, List.range_eq_range', Function.comp_def]
  · rw [← he3]
    simp [combiner_quotient_messages, Function.comp_def]

/-- The whole transcript of a run of `fold_instances` that reaches its `return`. -/
theorem fold_instances_events {F X U : Type} [CommRing F] (P : Externals F X U) (NUM : Nat)
    (instances0 : List (Instance F X)) (t0 t : Transcript F) (L : FoldLocals F X U)
    (h : fold_instances_locals P NUM instances0 t0 = (t, Except.ok L)) :
    t.events = t0.events ++ (preparation_events P instances0 ++
      ([Event.challenge "alpha", Event.challenge "delta"] ++
      ((perturbator_messages L.log_instance_size L.perturbator).map
        (fun m => Event.send m.1 m.2) ++
      ([Event.challenge "perturbator_challenge"] ++
      ((combiner_quotient_messages (P.value_at L.combiner_quotient) NUM L.combiner.length).map
        (fun m => Event.send m.1 m.2) ++
      [Event.challenge "combiner_qoutient_challenge"]))))) := by
  obtain ⟨t1, t2, t3, p0, S⟩ := fold_instances_locals_inv P NUM instances0 t0 t L h
  obtain ⟨_, h1, h2, h3, h4⟩ := fold_steps_events P NUM instances0 t0 t L t1 t2 t3 p0 S
  rw [h4, h3, h2, h1]
  simp only [List.append_assoc]

/-- The fold reaches its `return` when the preparation ran, the accumulator has a first
polynomial, `d ≥ 1`, and `betas`, `deltas` and the perturbator are long enough. -/
theorem fold_instances_locals_ok {F X U : Type} [CommRing F] (P : Externals F X U) (NUM : Nat)
    (instances0 instances : List (Instance F X)) (t0 t1 : Transcript F)
    (accumulator : Instance F X) (polynomial_0 : List F)
    (hprep : prepare_for_folding P instances0 t0 = (t1, Except.ok instances))
    (hacc : get_accumulator instances = Except.ok accumulator)
    (hpoly : accumulator.prover_polynomials[0]? = some polynomial_0)
    (hd : 1 ≤ get_msb polynomial_0.length)
    (hbetas : get_msb polynomial_0.length ≤
      accumulator.folding_parameters.gate_separation_challenges.length)
    (hdeltas : ∀ x, get_msb polynomial_0.length - 1 ≤
      (P.compute_round_challenge_pows (get_msb polynomial_0.length) x).length)
    (hpert : ∀ x a, get_msb polynomial_0.length + 1 ≤ (P.compute_perturbator accumulator
      (P.compute_round_challenge_pows (get_msb polynomial_0.length) x) a).length) :
    ∃ t L, fold_instances_locals P NUM instances0 t0 = (t, Except.ok L) := by
  unfold fold_instances_locals
  simp only [hprep, hacc, hpoly]
  rw [read_send_loop_ok _ "perturbator" (fun i => "perturbator_" ++ toString i) _
    (send_perturbator_eq _) _ _ _ (fun i _ h2 => by
      have := hpert (Transcript.get_challenge P.hash
        (Transcript.get_challenge P.hash t1 "alpha").2 "delta").1
        (Transcript.get_challenge P.hash t1 "alpha").1
      omega)]
  simp only []
  obtain ⟨bs, hbs⟩ := compute_betas_star_ok (get_msb polynomial_0.length)
    (Transcript.get_challenge P.hash ⟨(Transcript.get_challenge P.hash
        (Transcript.get_challenge P.hash t1 "alpha").2 "delta").2.events ++
      (List.range' 0 (get_msb polynomial_0.length + 1)).map (fun i =>
        Event.send ("perturbator_" ++ toString i) (Value.field
          ((P.compute_perturbator accumulator
            (P.compute_round_challenge_pows (get_msb polynomial_0.length)
              (Transcript.get_challenge P.hash (Transcript.get_challenge P.hash t1 "alpha").2
                "delta").1) (Transcript.get_challenge P.hash t1 "alpha").1).getD i 0)))⟩
      "perturbator_challenge").1
    accumulator.folding_parameters.gate_separation_challenges
    (P.compute_round_challenge_pows (get_msb polynomial_0.length)
      (Transcript.get_challenge P.hash (Transcript.get_challenge P.hash t1 "alpha").2
        "delta").1) hd hbetas (hdeltas _)
  simp only [hbs, send_combiner_quotient_loop]
  exact ⟨_, _, rfl⟩


/-- The fold faults on a read of `betas` when `betas` is shorter than `d` and `d ≥ 2`, all
other containers being long enough. -/
theorem fold_instances_locals_betas_fault {F X U : Type} [CommRing F] (P : Externals F X U)
    (NUM : Nat) (instances0 instances : List (Instance F X)) (t0 t1 : Transcript F)
    (accumulator : Instance F X) (polynomial_0 : List F)
    (hprep : prepare_for_folding P instances0 t0 = (t1, Except.ok instances))
    (hacc : get_accumulator instances = Except.ok accumulator)
    (hpoly : accumulator.prover_polynomials[0]? = some polynomial_0)
    (hd : 2 ≤ get_msb polynomial_0.length)
    (hbetas : accumulator.folding_parameters.gate_separation_challenges.length <
      get_msb polynomial_0.length)
    (hdeltas : ∀ x, get_msb polynomial_0.length - 1 ≤
      (P.compute_round_challenge_pows (get_msb polynomial_0.length) x).length)
    (hpert : ∀ x a, get_msb polynomial_0.length + 1 ≤ (P.compute_perturbator accumulator
      (P.compute_round_challenge_pows (get_msb polynomial_0.length) x) a).length) :
    ∃ t, fold_instances_locals P NUM instances0 t0 = (t, Except.error (Fault.out_of_bounds
      "betas" (max 1 accumulator.folding_parameters.gate_separation_challenges.length))) := by
  unfold fold_instances_locals
  simp only [hprep, hacc, hpoly]
  generalize Transcript.get_challenge P.hash t1 "alpha" = al
  generalize Transcript.get_challenge P.hash al.2 "delta" = de
  rw [read_send_loop_ok _ "perturbator" (fun i => "perturbator_" ++ toString i) _
    (send_perturbator_eq _) _ _ _ (fun i _ h2 => by
      have := hpert de.1 al.1
      omega)]
  simp only []
  generalize Transcript.get_challenge P.hash _ "perturbator_challenge" = pc
  obtain ⟨bs, hbs⟩ := compute_betas_star_fault (get_msb polynomial_0.length) pc.1
    accumulator.folding_parameters.gate_separation_challenges
    (P.compute_round_challenge_pows (get_msb polynomial_0.length) de.1) hd hbetas (hdeltas _)
  simp only [hbs]
  exact ⟨_, rfl⟩

/-! ## Reading the messages of a transcript -/

theorem sent_append {F : Type} (l1 l2 : List (Event F)) : sent (l1 ++ l2) = sent l1 ++ sent l2 :=
  List.filterMap_append _ _ _

theorem sent_map_send {F : Type} (msgs : List (String × Value F)) :
    sent (msgs.map (fun m => Event.send m.1 m.2)) = msgs := by
  induction msgs with
  | nil => rfl
  | cons m rest ih =>
    have h := ih
    unfold sent at h ⊢
    simp only [List.map_cons, List.filterMap_cons, h]

theorem sent_instance_events {F X : Type} [CommRing F] (idx : Nat) (inst : Instance F X) :
    sent (instance_events idx inst) = instance_messages idx inst := by
  unfold instance_events
  rw [sent_append, sent_map_send]
  simp [sent]

theorem sent_flatMap_instance_events {F X U : Type} [CommRing F] (P : Externals F X U)
    (l : List (Nat × Instance F X)) :
    sent (l.flatMap (fun p => instance_events p.1 (P.initialise_prover_polynomials p.2))) =
      l.flatMap (fun p => instance_messages p.1 (P.initialise_prover_polynomials p.2)) := by
  induction l with
  | nil => rfl
  | cons p rest ih => simp only [List.flatMap_cons, sent_append, sent_instance_events, ih]

/-- The messages among the events of `prepare_for_folding`. -/
theorem sent_preparation_events {F X U : Type} [CommRing F] (P : Externals F X U)
    (instances : List (Instance F X)) :
    sent (preparation_events P instances) = preparation_messages P instances :=
  sent_flatMap_instance_events P _

/-! ## Labels -/

theorem digitChar_ne_of_not_isDigit (k : Nat) (c : Char) (hc : c.isDigit = false) :
    Nat.digitChar (k % 10) ≠ c := by
  have hk : k % 10 < 10 := Nat.mod_lt _ (by decide)
  intro h
  have hdig : (Nat.digitChar (k % 10)).isDigit = true := by
    generalize k % 10 = m at hk
    interval_cases m <;> decide
  rw [h, hc] at hdig
  exact absurd hdig (by decide)

theorem toDigitsCore_head (fuel : Nat) : ∀ (n : Nat) (ds : List Char), 0 < fuel →
    ∃ k rest, Nat.toDigitsCore 10 fuel n ds = Nat.digitChar (k % 10) :: rest := by
  induction fuel with
  | zero => intro n ds h; omega
  | succ f ih =>
    intro n ds _
    rw [Nat.toDigitsCore]
    by_cases h0 : n / 10 = 0
    · simp only [h0, if_true]
      exact ⟨n, ds, rfl⟩
    · simp only [h0, if_false]
      cases f with
      | zero => exact ⟨n, ds, rfl⟩
      | succ g => exact ih _ _ (Nat.succ_pos _)

/-- The decimal string of a number starts with a digit. -/
theorem toString_head (n : Nat) :
    ∃ k rest, (toString n).data = Nat.digitChar (k % 10) :: rest := by
  show ∃ k rest, (Nat.repr n).data = _
  simp only [Nat.repr, List.asString, Nat.toDigits]
  exact toDigitsCore_head (n + 1) n [] (Nat.succ_pos _)

/-- A label that starts with the decimal string of an index does not start with a word whose
first character is not a digit. -/
theorem starts_with_toString (c : Char) (cs : List Char) (hc : c.isDigit = false) (idx : Nat)
    (s : String) : starts_with (String.mk (c :: cs)) (toString idx ++ s) = false := by
  obtain ⟨k, rest, h⟩ := toString_head idx
  have hne := digitChar_ne_of_not_isDigit k c hc
  simp [starts_with, String.data_append, h, List.isPrefixOf, Ne.symm hne]

theorem perturbator_label_ne_toString (idx : Nat) (s : String) :
    starts_with "perturbator_" (toString idx ++ s) = false :=
  starts_with_toString 'p' "erturbator_".data (by decide) idx s

theorem combiner_quotient_label_ne_toString (idx : Nat) (s : String) :
    starts_with "combiner_quotient_" (toString idx ++ s) = false :=
  starts_with_toString 'c' "ombiner_quotient_".data (by decide) idx s

theorem starts_with_perturbator (s : String) :
    starts_with "perturbator_" ("perturbator_" ++ s) = true := by
  simp [starts_with, String.data_append, List.isPrefixOf]

theorem starts_with_combiner_quotient (s : String) :
    starts_with "combiner_quotient_" ("combiner_quotient_" ++ s) = true := by
  simp [starts_with, String.data_append, List.isPrefixOf]

theorem perturbator_not_combiner_quotient (s : String) :
    starts_with "perturbator_" ("combiner_quotient_" ++ s) = false := by
  simp [starts_with, String.data_append, List.isPrefixOf]

theorem combiner_quotient_not_perturbator (s : String) :
    starts_with "combiner_quotient_" ("perturbator_" ++ s) = false := by
  simp [starts_with, String.data_append, List.isPrefixOf]


/-! ## Filtering the messages by label -/

theorem filter_instance_messages {F X : Type} [CommRing F] (pre : String)
    (hpre : ∀ (idx : Nat) (s : String), starts_with pre (toString idx ++ s) = false)
    (idx : Nat) (inst : Instance F X) :
    (instance_messages idx inst).filter (fun m => starts_with pre m.1) = [] := by
  rw [List.filter_eq_nil_iff]
  intro m hm
  unfold instance_messages at hm
  simp only [List.mem_append, List.mem_cons, List.mem_map, List.mem_range,
    List.not_mem_nil, or_false] at hm
  rcases hm with (rfl | rfl | rfl) | ⟨i, _, rfl⟩
  · simp [hpre]
  · simp [hpre]
  · simp [hpre]
  · simp [hpre, String.append_assoc]

theorem filter_preparation_messages {F X U : Type} [CommRing F] (P : Externals F X U)
    (pre : String)
    (hpre : ∀ (idx : Nat) (s : String), starts_with pre (toString idx ++ s) = false)
    (instances : List (Instance F X)) :
    (preparation_messages P instances).filter (fun m => starts_with pre m.1) = [] := by
  rw [List.filter_eq_nil_iff]
  intro m hm
  unfold preparation_messages at hm
  rw [List.mem_flatMap] at hm
  obtain ⟨p, _, hp⟩ := hm
  have h := filter_instance_messages pre hpre p.1 (P.initialise_prover_polynomials p.2)
  rw [List.filter_eq_nil_iff] at h
  exact h m hp

theorem filter_perturbator_messages_self {F : Type} [CommRing F] (d : Nat) (p : List F) :
    (perturbator_messages d p).filter (fun m => starts_with "perturbator_" m.1) =
      perturbator_messages d p := by
  rw [List.filter_eq_self]
  intro m hm
  unfold perturbator_messages at hm
  simp only [List.mem_map] at hm
  obtain ⟨i, _, rfl⟩ := hm
  exact starts_with_perturbator _

theorem filter_perturbator_messages_other {F : Type} [CommRing F] (d : Nat) (p : List F) :
    (perturbator_messages d p).filter (fun m => starts_with "combiner_quotient_" m.1) = [] := by
  rw [List.filter_eq_nil_iff]
  intro m hm
  unfold perturbator_messages at hm
  simp only [List.mem_map] at hm
  obtain ⟨i, _, rfl⟩ := hm
  simp [combiner_quotient_not_perturbator]

theorem filter_combiner_quotient_messages_self {F : Type} (v : Nat → F) (K n : Nat) :
    (combiner_quotient_messages v K n).filter
      (fun m => starts_with "combiner_quotient_" m.1) = combiner_quotient_messages v K n := by
  rw [List.filter_eq_self]
  intro m hm
  unfold combiner_quotient_messages at hm
  simp only [List.mem_map] at hm
  obtain ⟨i, _, rfl⟩ := hm
  exact starts_with_combiner_quotient _

theorem filter_combiner_quotient_messages_other {F : Type} (v : Nat → F) (K n : Nat) :
    (combiner_quotient_messages v K n).filter
      (fun m => starts_with "perturbator_" m.1) = [] := by
  rw [List.filter_eq_nil_iff]
  intro m hm
  unfold combiner_quotient_messages at hm
  simp only [List.mem_map] at hm
  obtain ⟨i, _, rfl⟩ := hm
  simp [perturbator_not_combiner_quotient]

/-- The messages of a run of `fold_instances` that reaches its `return`, after the events
`t0` already held. -/
theorem fold_instances_sent {F X U : Type} [CommRing F] (P : Externals F X U) (NUM : Nat)
    (instances0 : List (Instance F X)) (t0 t : Transcript F) (L : FoldLocals F X U)
    (h : fold_instances_locals P NUM instances0 t0 = (t, Except.ok L)) :
    sent (t.events.drop t0.events.length) = preparation_messages P instances0 ++
      (perturbator_messages L.log_instance_size L.perturbator ++
      combiner_quotient_messages (P.value_at L.combiner_quotient) NUM L.combiner.length) := by
  rw [fold_instances_events P NUM instances0 t0 t L h, List.drop_left]
  simp only [sent_append, sent_map_send, sent_preparation_events]
  simp [sent]

/-- Evaluating the polynomial whose coefficients are all zero gives zero. -/
theorem polynomial_evaluate_zero {F : Type} [CommRing F] (coefficients : List F) (z : F)
    (h : ∀ c ∈ coefficients, c = 0) : polynomial_evaluate coefficients z = 0 := by
  induction coefficients with
  | nil => rfl
  | cons c rest ih =>
    have hc : c = 0 := h c (List.mem_cons_self _ _)
    have hr := ih (fun x hx => h x (List.mem_cons_of_mem _ hx))
    unfold polynomial_evaluate at hr ⊢
    simp only [List.foldr_cons, hr, hc, mul_zero, add_zero]

/-- The result of `fold_instances` is built from the locals at the `return`. -/
theorem fold_instances_eq_ok {F X U : Type} [CommRing F] (P : Externals F X U) (NUM : Nat)
    (instances0 : List (Instance F X)) (t0 t : Transcript F) (res : ProverFoldingResult F)
    (h : fold_instances P NUM instances0 t0 = (t, Except.ok res)) :
    ∃ L, fold_instances_locals P NUM instances0 t0 = (t, Except.ok L) ∧
      res = folding_result t L := by
  unfold fold_instances at h
  split at h
  · simp at h
  · rename_i t2 L hL
    simp only [Prod.mk.injEq, Except.ok.injEq] at h
    obtain ⟨rfl, rfl⟩ := h
    exact ⟨L, hL, rfl⟩


/-- In a run that reaches its `return` after a preparation that left `instances` with the
accumulator `accumulator`, the locals hold this accumulator and the logarithm of the size of
its first polynomial. -/
theorem fold_steps_accumulator {F X U : Type} [CommRing F] (P : Externals F X U) (NUM : Nat)
    (instances0 instances : List (Instance F X)) (t0 t t1 : Transcript F)
    (accumulator : Instance F X) (polynomial_0 : List F) (L : FoldLocals F X U)
    (hprep : prepare_for_folding P instances0 t0 = (t1, Except.ok instances))
    (hacc : get_accumulator instances = Except.ok accumulator)
    (hpoly : accumulator.prover_polynomials[0]? = some polynomial_0)
    (h : fold_instances_locals P NUM instances0 t0 = (t, Except.ok L)) :
    L.accumulator = accumulator ∧ L.log_instance_size = get_msb polynomial_0.length ∧
    L.betas = accumulator.folding_parameters.gate_separation_challenges ∧
    compute_betas_star L.log_instance_size L.perturbator_challenge L.betas L.deltas =
      (L.betas_star, Except.ok ()) ∧
    L.log_instance_size + 1 ≤ L.perturbator.length := by
  obtain ⟨s1, s2, s3, p0, S⟩ := fold_instances_locals_inv P NUM instances0 t0 t L h
  have hb := (fold_steps_events P NUM instances0 t0 t L s1 s2 s3 p0 S).1
  have h1 := S.prepared
  rw [hprep] at h1
  simp only [Prod.mk.injEq, Except.ok.injEq] at h1
  have h2 := S.accumulator_eq
  rw [← h1.2, hacc] at h2
  simp only [Except.ok.injEq] at h2
  have h3 := S.polynomial_0_eq
  rw [← h2, hpoly] at h3
  simp only [Option.some.injEq] at h3
  refine ⟨h2.symm, ?_, ?_, S.betas_star_eq, hb⟩
  · rw [S.log_instance_size_eq, S.instance_size_eq, h3]
  · rw [S.betas_eq, ← h2]

/-! ## The claims -/

/-- C1: for every run of `fold_instances` (for every `NUM`, so for `K = 2`) that returns, the
`target_sum` stored in the result equals
`compressed_perturbator * (1 - c) + c * (c - 1) * Q(c)`, where `compressed_perturbator` is the
perturbator evaluated at `perturbator_challenge`, `c` is the combiner challenge and `Q(c)` is
the combiner quotient evaluated at `c`. -/
theorem fold_instances_target_sum {F X U : Type} [CommRing F] (P : Externals F X U) (NUM : Nat)
    (instances0 : List (Instance F X)) (t0 t : Transcript F) (res : ProverFoldingResult F)
    (h : fold_instances P NUM instances0 t0 = (t, Except.ok res)) :
    ∃ L, fold_instances_locals P NUM instances0 t0 = (t, Except.ok L) ∧
      L.compressed_perturbator = polynomial_evaluate L.perturbator L.perturbator_challenge ∧
      L.combiner_quotient_at_challenge = P.evaluate L.combiner_quotient L.combiner_challenge ∧
      res.params.target_sum =
        L.compressed_perturbator * (1 - L.combiner_challenge) +
          L.combiner_challenge * (L.combiner_challenge - 1) *
            L.combiner_quotient_at_challenge := by
  obtain ⟨L, hL, hres⟩ := fold_instances_eq_ok P NUM instances0 t0 t res h
  obtain ⟨t1, t2, t3, p0, S⟩ := fold_instances_locals_inv P NUM instances0 t0 t L hL
  refine ⟨L, hL, S.compressed_perturbator_eq, S.combiner_quotient_at_challenge_eq, ?_⟩
  rw [hres]
  show L.new_target_sum = _
  rw [S.new_target_sum_eq, S.lagrange_0_eq, S.vanishing_eq]

/-- C1, on a concrete fold of two instances of circuit size 4. -/
theorem fold_instances_target_sum_witness :
    fold_instances example_externals 2 example_instances ⟨[]⟩ =
      (example_transcript, Except.ok example_result) ∧
    ∃ L, fold_instances_locals example_externals 2 example_instances ⟨[]⟩ =
        (example_transcript, Except.ok L) ∧
      L.compressed_perturbator = polynomial_evaluate L.perturbator L.perturbator_challenge ∧
      L.combiner_quotient_at_challenge =
        example_externals.evaluate L.combiner_quotient L.combiner_challenge ∧
      example_result.params.target_sum =
        L.compressed_perturbator * (1 - L.combiner_challenge) +
          L.combiner_challenge * (L.combiner_challenge - 1) *
            L.combiner_quotient_at_challenge :=
  ⟨rfl, fold_instances_target_sum example_externals 2 example_instances ⟨[]⟩
    example_transcript example_result rfl⟩

/-- C2: for every accumulator with `d = log2(circuit_size) ≥ 1` (its first polynomial having
`circuit_size` entries) and `d` gate separation challenges `betas`, when `deltas` has `d`
entries and the perturbator `d + 1` coefficients, `fold_instances` computes a vector
`betas_star` of length `d` with `betas_star[0] = 1` and, for `1 ≤ i < d`,
`betas_star[i] = betas[i] + perturbator_challenge * deltas[i - 1]`. -/
theorem fold_instances_betas_star {F X U : Type} [CommRing F] (P : Externals F X U) (NUM : Nat)
    (instances0 instances : List (Instance F X)) (t0 t1 : Transcript F)
    (accumulator : Instance F X) (polynomial_0 : List F) (d : Nat)
    (hprep : prepare_for_folding P instances0 t0 = (t1, Except.ok instances))
    (hacc : get_accumulator instances = Except.ok accumulator)
    (hpoly : accumulator.prover_polynomials[0]? = some polynomial_0)
    (hsize : polynomial_0.length = accumulator.proving_key.circuit_size)
    (hlog : d = get_msb accumulator.proving_key.circuit_size)
    (hd : 1 ≤ d)
    (hbetas : accumulator.folding_parameters.gate_separation_challenges.length = d)
    (hdeltas : ∀ x, (P.compute_round_challenge_pows d x).length = d)
    (hpert : ∀ x a, (P.compute_perturbator accumulator
      (P.compute_round_challenge_pows d x) a).length = d + 1) :
    ∃ t L, fold_instances_locals P NUM instances0 t0 = (t, Except.ok L) ∧
      L.accumulator = accumulator ∧
      L.betas = accumulator.folding_parameters.gate_separation_challenges ∧
      L.betas_star.length = d ∧
      L.betas_star[0]? = some 1 ∧
      ∀ i, 1 ≤ i → i < d →
        ∃ b dl, L.betas[i]? = some b ∧ L.deltas[i - 1]? = some dl ∧
          L.betas_star[i]? = some (b + L.perturbator_challenge * dl) := by
  have hmsb : get_msb polynomial_0.length = d := by rw [hsize, hlog]
  obtain ⟨t, L, hL⟩ := fold_instances_locals_ok P NUM instances0 instances t0 t1 accumulator
    polynomial_0 hprep hacc hpoly (by omega) (by omega)
    (fun x => by rw [hmsb, hdeltas]; omega) (fun x a => by rw [hmsb, hpert])
  obtain ⟨ha, hl, hb, hbs, _⟩ := fold_steps_accumulator P NUM instances0 instances t0 t t1
    accumulator polynomial_0 L hprep hacc hpoly hL
  obtain ⟨_, hlen, h0, hi⟩ := compute_betas_star_inv _ _ _ _ _ _ hbs
  rw [hl, hmsb] at hlen hi
  exact ⟨t, L, hL, ha, hb, hlen, h0, hi⟩

/-- C2, on a concrete fold with `d = 2`. -/
theorem fold_instances_betas_star_witness :
    ∃ t L, fold_instances_locals example_externals 2 example_instances ⟨[]⟩ =
        (t, Except.ok L) ∧
      L.accumulator = example_instance 4 [3, 4] ∧
      L.betas = (example_instance 4 [3, 4]).folding_parameters.gate_separation_challenges ∧
      L.betas_star.length = 2 ∧
      L.betas_star[0]? = some 1 ∧
      ∀ i, 1 ≤ i → i < 2 →
        ∃ b dl, L.betas[i]? = some b ∧ L.deltas[i - 1]? = some dl ∧
          L.betas_star[i]? = some (b + L.perturbator_challenge * dl) :=
  fold_instances_betas_star example_externals 2 example_instances example_instances ⟨[]⟩
    ⟨example_preparation⟩ (example_instance 4 [3, 4]) [0, 0, 0, 0] 2 rfl rfl rfl rfl rfl
    (by decide) rfl (fun x => by simp [example_externals])
    (fun x a => by simp [example_externals])


/-- C3: for every accumulator whose polynomials have size `2 ^ d`, a run of `fold_instances`
that returns has sent exactly `d + 1` messages whose label starts with `perturbator_`: the
`i`-th, for `i = 0..d` in increasing order, is labelled `perturbator_i` and carries
coefficient `i` of the perturbator (which has at least `d + 1` coefficients). -/
theorem fold_instances_perturbator_messages {F X U : Type} [CommRing F] (P : Externals F X U)
    (NUM : Nat) (instances0 : List (Instance F X)) (t0 t : Transcript F)
    (L : FoldLocals F X U) (d : Nat)
    (h : fold_instances_locals P NUM instances0 t0 = (t, Except.ok L))
    (hsize : ∀ p ∈ L.accumulator.prover_polynomials, p.length = 2 ^ d) :
    sent_with "perturbator_" (t.events.drop t0.events.length) =
      (List.range (d + 1)).map (fun i =>
        ("perturbator_" ++ toString i, Value.field (L.perturbator.getD i 0))) ∧
    (sent_with "perturbator_" (t.events.drop t0.events.length)).length = d + 1 ∧
    d + 1 ≤ L.perturbator.length := by
  obtain ⟨t1, t2, t3, p0, S⟩ := fold_instances_locals_inv P NUM instances0 t0 t L h
  have hb := (fold_steps_events P NUM instances0 t0 t L t1 t2 t3 p0 S).1
  have hmem : p0 ∈ L.accumulator.prover_polynomials := by
    obtain ⟨hlt, he⟩ := List.getElem?_eq_some.1 S.polynomial_0_eq
    rw [← he]
    exact List.getElem_mem hlt
  have hd : L.log_instance_size = d := by
    rw [S.log_instance_size_eq, S.instance_size_eq, hsize p0 hmem, get_msb_two_pow]
  have hsent : sent_with "perturbator_" (t.events.drop t0.events.length) =
      perturbator_messages d L.perturbator := by
    unfold sent_with
    rw [fold_instances_sent P NUM instances0 t0 t L h, List.filter_append, List.filter_append,
      filter_preparation_messages P "perturbator_" perturbator_label_ne_toString,
      filter_perturbator_messages_self, filter_combiner_quotient_messages_other, hd]
    simp
  rw [hsent]
  refine ⟨rfl, ?_, by omega⟩
  simp [perturbator_messages]

/-- C3, on a concrete fold with `d = 2`: three perturbator messages. -/
theorem fold_instances_perturbator_messages_witness :
    fold_instances_locals example_externals 2 example_instances ⟨[]⟩ =
      (example_transcript, Except.ok example_locals) ∧
    (∀ p ∈ example_locals.accumulator.prover_polynomials, p.length = 2 ^ 2) ∧
    sent_with "perturbator_"
        (example_transcript.events.drop (Transcript.mk (F := Int) []).events.length) =
      (List.range (2 + 1)).map (fun i =>
        ("perturbator_" ++ toString i, Value.field (example_locals.perturbator.getD i 0))) ∧
    (sent_with "perturbator_"
      (example_transcript.events.drop (Transcript.mk (F := Int) []).events.length)).length =
        2 + 1 ∧
    2 + 1 ≤ example_locals.perturbator.length :=
  ⟨rfl, by decide, fold_instances_perturbator_messages example_externals 2 example_instances
    ⟨[]⟩ example_transcript example_locals 2 rfl (by decide)⟩

/-- C4: in a run of `fold_instances` with `K = NUM` instances and a combiner of length `n`
that returns, the messages whose label starts with `combiner_quotient_` are those of the
indices `i` with `K ≤ i < n`, in increasing order, each labelled `combiner_quotient_i` and
carrying `combiner_quotient.value_at(i)`: `n - K` messages, none when `n ≤ K`, and every
one of them of an index `i` with `K ≤ i < n`. -/
theorem fold_instances_combiner_quotient_messages {F X U : Type} [CommRing F]
    (P : Externals F X U) (NUM : Nat) (instances0 : List (Instance F X)) (t0 t : Transcript F)
    (L : FoldLocals F X U)
    (h : fold_instances_locals P NUM instances0 t0 = (t, Except.ok L)) :
    sent_with "combiner_quotient_" (t.events.drop t0.events.length) =
      (List.range' NUM (L.combiner.length - NUM)).map (fun i =>
        ("combiner_quotient_" ++ toString i,
          Value.field (P.value_at L.combiner_quotient i))) ∧
    (sent_with "combiner_quotient_" (t.events.drop t0.events.length)).length =
      L.combiner.length - NUM ∧
    (L.combiner.length ≤ NUM →
      sent_with "combiner_quotient_" (t.events.drop t0.events.length) = []) ∧
    (∀ m ∈ sent_with "combiner_quotient_" (t.events.drop t0.events.length),
      ∃ i, NUM ≤ i ∧ i < L.combiner.length ∧
        m = ("combiner_quotient_" ++ toString i,
          Value.field (P.value_at L.combiner_quotient i))) := by
  have hsent : sent_with "combiner_quotient_" (t.events.drop t0.events.length) =
      combiner_quotient_messages (P.value_at L.combiner_quotient) NUM L.combiner.length := by
    unfold sent_with
    rw [fold_instances_sent P NUM instances0 t0 t L h, List.filter_append, List.filter_append,
      filter_preparation_messages P "combiner_quotient_" combiner_quotient_label_ne_toString,
      filter_perturbator_messages_other, filter_combiner_quotient_messages_self]
    simp
  rw [hsent]
  refine ⟨rfl, ?_, ?_, ?_⟩
  · simp [combiner_quotient_messages]
  · intro hle
    have h0 : L.combiner.length - NUM = 0 := by omega
    simp [combiner_quotient_messages, h0]
  · intro m hm
    unfold combiner_quotient_messages at hm
    obtain ⟨i, hi, rfl⟩ := List.mem_map.1 hm
    rw [List.mem_range'_1] at hi
    exact ⟨i, hi.1, by omega, rfl⟩

/-- C4, on a concrete fold with `K = 2` and a combiner of length 4: two messages. -/
theorem fold_instances_combiner_quotient_messages_witness :
    fold_instances_locals example_externals 2 example_instances ⟨[]⟩ =
      (example_transcript, Except.ok example_locals) ∧
    sent_with "combiner_quotient_"
        (example_transcript.events.drop (Transcript.mk (F := Int) []).events.length) =
      (List.range' 2 (example_locals.combiner.length - 2)).map (fun i =>
        ("combiner_quotient_" ++ toString i,
          Value.field (example_externals.value_at example_locals.combiner_quotient i))) ∧
    (sent_with "combiner_quotient_"
      (example_transcript.events.drop (Transcript.mk (F := Int) []).events.length)).length =
        example_locals.combiner.length - 2 ∧
    (example_locals.combiner.length ≤ 2 →
      sent_with "combiner_quotient_"
        (example_transcript.events.drop (Transcript.mk (F := Int) []).events.length) = []) ∧
    (∀ m ∈ sent_with "combiner_quotient_"
        (example_transcript.events.drop (Transcript.mk (F := Int) []).events.length),
      ∃ i, 2 ≤ i ∧ i < example_locals.combiner.length ∧
        m = ("combiner_quotient_" ++ toString i,
          Value.field (example_externals.value_at example_locals.combiner_quotient i))) :=
  ⟨rfl, fold_instances_combiner_quotient_messages example_externals 2 example_instances ⟨[]⟩
    example_transcript example_locals rfl⟩

/-- C5: for every list of instances whose public inputs are all present,
`prepare_for_folding` runs to its end and writes to the transcript instance by instance in
index order; the instance at index `idx` with `n` public inputs sends exactly `3 + n`
messages: `circuit_size`, `num_public_inputs`, `public_inputs_offset` (as `uint32_t`,
labelled with the decimal string of `idx` as first part), then `public_inputs[i]` for
`i = 0..n-1`, labelled by `idx` and `i`. -/
theorem prepare_for_folding_messages {F X U : Type} [CommRing F] (P : Externals F X U)
    (instances : List (Instance F X)) (t : Transcript F)
    (hin : ∀ inst ∈ instances,
      (P.initialise_prover_polynomials inst).proving_key.num_public_inputs ≤
        (P.initialise_prover_polynomials inst).public_inputs.length) :
    (∃ t1 prepared, prepare_for_folding P instances t = (t1, Except.ok prepared) ∧
      sent (t1.events.drop t.events.length) =
        (List.enum instances).flatMap (fun p =>
          instance_messages p.1 (P.initialise_prover_polynomials p.2))) ∧
    ∀ (idx : Nat) (inst : Instance F X),
      (instance_messages idx inst).length = 3 + inst.proving_key.num_public_inputs ∧
      instance_messages idx inst =
        [ (toString idx ++ "_circuit_size",
            Value.u32 (inst.proving_key.circuit_size % 2 ^ 32)),
          (toString idx ++ "_public_input_size",
            Value.u32 (inst.proving_key.num_public_inputs % 2 ^ 32)),
          (toString idx ++ "_pub_inputs_offset", Value.u32 (inst.pub_inputs_offset % 2 ^ 32)) ] ++
        (List.range inst.proving_key.num_public_inputs).map (fun i =>
          (toString idx ++ "_public_input_" ++ toString i,
            Value.field (inst.public_inputs.getD i 0))) := by
  refine ⟨?_, fun idx inst => ⟨?_, rfl⟩⟩
  · obtain ⟨prepared, hp⟩ := prepare_for_folding_ok P instances t hin
    refine ⟨_, prepared, hp, ?_⟩
    simp only [List.drop_left]
    exact sent_preparation_events P instances
  · simp [instance_messages]
    omega

/-- C5, on two concrete instances with one public input each: four messages per instance. -/
theorem prepare_for_folding_messages_witness :
    (∀ inst ∈ example_instances,
      (example_externals.initialise_prover_polynomials inst).proving_key.num_public_inputs ≤
        (example_externals.initialise_prover_polynomials inst).public_inputs.length) ∧
    (∃ t1 prepared, prepare_for_folding example_externals example_instances ⟨[]⟩ =
        (t1, Except.ok prepared) ∧
      sent (t1.events.drop (Transcript.mk (F := Int) []).events.length) =
        (List.enum example_instances).flatMap (fun p =>
          instance_messages p.1 (example_externals.initialise_prover_polynomials p.2))) ∧
    ∀ (idx : Nat) (inst : Instance Int Unit),
      (instance_messages idx inst).length = 3 + inst.proving_key.num_public_inputs ∧
      instance_messages idx inst =
        [ (toString idx ++ "_circuit_size",
            Value.u32 (inst.proving_key.circuit_size % 2 ^ 32)),
          (toString idx ++ "_public_input_size",
            Value.u32 (inst.proving_key.num_public_inputs % 2 ^ 32)),
          (toString idx ++ "_pub_inputs_offset", Value.u32 (inst.pub_inputs_offset % 2 ^ 32)) ] ++
        (List.range inst.proving_key.num_public_inputs).map (fun i =>
          (toString idx ++ "_public_input_" ++ toString i,
            Value.field (inst.public_inputs.getD i 0))) :=
  ⟨by decide, prepare_for_folding_messages example_externals example_instances ⟨[]⟩
    (by decide)⟩


/-- C6: in every run of `fold_instances` that returns, the transcript grew by, in this order:
for each instance in index order its sends and then its `eta`, `beta`, `gamma` requests; the
`alpha` and `delta` requests; the `d + 1` perturbator sends; the `perturbator_challenge`
request; the combiner quotient sends; the combiner challenge request, after which nothing is
sent.  Each challenge is derived from exactly the events before its request. -/
theorem fold_instances_challenge_order {F X U : Type} [CommRing F] (P : Externals F X U)
    (NUM : Nat) (instances0 : List (Instance F X)) (t0 t : Transcript F)
    (L : FoldLocals F X U)
    (h : fold_instances_locals P NUM instances0 t0 = (t, Except.ok L)) :
    t.events = t0.events ++ preparation_events P instances0 ++
      [Event.challenge "alpha", Event.challenge "delta"] ++
      sends (perturbator_messages L.log_instance_size L.perturbator) ++
      [Event.challenge "perturbator_challenge"] ++
      sends (combiner_quotient_messages (P.value_at L.combiner_quotient) NUM
        L.combiner.length) ++
      [Event.challenge "combiner_qoutient_challenge"] ∧
    preparation_events P instances0 = (List.enum instances0).flatMap (fun p =>
      sends (instance_messages p.1 (P.initialise_prover_polynomials p.2)) ++
        [ Event.challenge (toString p.1 ++ "_eta"), Event.challenge (toString p.1 ++ "_beta"),
          Event.challenge (toString p.1 ++ "_gamma") ]) ∧
    (perturbator_messages L.log_instance_size L.perturbator).length =
      L.log_instance_size + 1 ∧
    L.alpha = P.hash (t0.events ++ preparation_events P instances0) "alpha" ∧
    L.delta = P.hash (t0.events ++ preparation_events P instances0 ++
      [Event.challenge "alpha"]) "delta" ∧
    L.perturbator_challenge = P.hash (t0.events ++ preparation_events P instances0 ++
      [Event.challenge "alpha", Event.challenge "delta"] ++
      sends (perturbator_messages L.log_instance_size L.perturbator))
      "perturbator_challenge" ∧
    L.combiner_challenge = P.hash (t0.events ++ preparation_events P instances0 ++
      [Event.challenge "alpha", Event.challenge "delta"] ++
      sends (perturbator_messages L.log_instance_size L.perturbator) ++
      [Event.challenge "perturbator_challenge"] ++
      sends (combiner_quotient_messages (P.value_at L.combiner_quotient) NUM
        L.combiner.length)) "combiner_qoutient_challenge" := by
  obtain ⟨t1, t2, t3, p0, S⟩ := fold_instances_locals_inv P NUM instances0 t0 t L h
  obtain ⟨_, h1, h2, h3, h4⟩ := fold_steps_events P NUM instances0 t0 t L t1 t2 t3 p0 S
  unfold sends
  refine ⟨?_, rfl, ?_, ?_, ?_, ?_, ?_⟩
  · rw [h4, h3, h2, h1]
  · simp [perturbator_messages]
  · rw [S.alpha_eq, h1]
  · rw [S.delta_eq, h1]
  · rw [S.perturbator_challenge_eq, h2, h1]
  · rw [S.combiner_challenge_eq, h3, h2, h1]

/-- C6, on a concrete fold of two instances. -/
theorem fold_instances_challenge_order_witness :
    fold_instances_locals example_externals 2 example_instances ⟨[]⟩ =
      (example_transcript, Except.ok example_locals) ∧
    example_transcript.events =
      (Transcript.mk (F := Int) []).events ++
      preparation_events example_externals example_instances ++
      [Event.challenge "alpha", Event.challenge "delta"] ++
      sends (perturbator_messages example_locals.log_instance_size
        example_locals.perturbator) ++
      [Event.challenge "perturbator_challenge"] ++
      sends (combiner_quotient_messages
        (example_externals.value_at example_locals.combiner_quotient) 2
        example_locals.combiner.length) ++
      [Event.challenge "combiner_qoutient_challenge"] :=
  ⟨rfl, (fold_instances_challenge_order example_externals 2 example_instances ⟨[]⟩
    example_transcript example_locals rfl).1⟩

/-- C7, refuted on a concrete fold of two instances of circuit size 1 (`d = 0`): the run makes
no degree check; it sends the single coefficient of a degree-0 perturbator as `perturbator_0`,
requests `perturbator_challenge`, and only then stops, on the write `betas_star[0] = 1` into
the empty vector `betas_star`. -/
theorem fold_instances_trivial_circuit_counterexample :
    (∀ inst ∈ trivial_instances, inst.proving_key.circuit_size = 1) ∧
    fold_instances example_externals 2 trivial_instances ⟨[]⟩ =
      (⟨trivial_preparation ++
        [ Event.challenge "alpha", Event.challenge "delta",
          Event.send "perturbator_0" (Value.field 1),
          Event.challenge "perturbator_challenge" ]⟩,
        Except.error (Fault.out_of_bounds "betas_star" 0)) :=
  ⟨by decide, rfl⟩

/-- C7 as the code has it: for every accumulator whose first polynomial has size 1 (`d = 0`)
and whose perturbator has at least one coefficient `c0`, `fold_instances` makes no degree
check: after the preparation it requests `alpha` and `delta`, sends `c0` as `perturbator_0`
and requests `perturbator_challenge`. -/
theorem fold_instances_trivial_circuit {F X U : Type} [CommRing F] (P : Externals F X U)
    (NUM : Nat) (instances0 instances : List (Instance F X)) (t0 t1 : Transcript F)
    (accumulator : Instance F X) (polynomial_0 : List F)
    (hprep : prepare_for_folding P instances0 t0 = (t1, Except.ok instances))
    (hacc : get_accumulator instances = Except.ok accumulator)
    (hpoly : accumulator.prover_polynomials[0]? = some polynomial_0)
    (hsize : polynomial_0.length = 1)
    (hpert : ∀ x a, 1 ≤ (P.compute_perturbator accumulator
      (P.compute_round_challenge_pows 0 x) a).length) :
    ∃ c0 rest,
      (P.compute_perturbator accumulator
        (P.compute_round_challenge_pows 0
          (P.hash (t1.events ++ [Event.challenge "alpha"]) "delta"))
        (P.hash t1.events "alpha"))[0]? = some c0 ∧
      (fold_instances_locals P NUM instances0 t0).1.events = t1.events ++
        [ Event.challenge "alpha", Event.challenge "delta",
          Event.send "perturbator_0" (Value.field c0),
          Event.challenge "perturbator_challenge" ] ++ rest := by
  have hmsb : get_msb polynomial_0.length = 0 := by rw [hsize]; rfl
  have hlen := hpert (P.hash (t1.events ++ [Event.challenge "alpha"]) "delta")
    (P.hash t1.events "alpha")
  have h0 : 0 < (P.compute_perturbator accumulator
      (P.compute_round_challenge_pows 0
        (P.hash (t1.events ++ [Event.challenge "alpha"]) "delta"))
      (P.hash t1.events "alpha")).length := by omega
  have hc := List.getElem?_eq_getElem h0
  refine ⟨_, [], hc, ?_⟩
  unfold fold_instances_locals
  simp only [hprep, hacc, hpoly, hmsb, Transcript.get_challenge, for_loop, send_perturbator,
    hc, compute_betas_star, List.replicate, List.length_nil, Nat.lt_irrefl, if_false,
    Transcript.send_to_verifier, List.append_assoc, List.singleton_append, List.cons_append,
    List.nil_append, List.append_nil, Nat.zero_add]
  rfl

/-- C7 as the code has it, on the concrete fold of two instances of circuit size 1. -/
theorem fold_instances_trivial_circuit_witness :
    ∃ c0 rest,
      (example_externals.compute_perturbator (example_instance 1 [])
        (example_externals.compute_round_challenge_pows 0
          (example_externals.hash (trivial_preparation ++ [Event.challenge "alpha"]) "delta"))
        (example_externals.hash trivial_preparation "alpha"))[0]? = some c0 ∧
      (fold_instances_locals example_externals 2 trivial_instances ⟨[]⟩).1.events =
        trivial_preparation ++
        [ Event.challenge "alpha", Event.challenge "delta",
          Event.send "perturbator_0" (Value.field c0),
          Event.challenge "perturbator_challenge" ] ++ rest :=
  fold_instances_trivial_circuit example_externals 2 trivial_instances trivial_instances ⟨[]⟩
    ⟨trivial_preparation⟩ (example_instance 1 []) [0] rfl rfl rfl rfl
    (fun x a => by simp [example_externals])


/-- C8: for every fold in which all relations are satisfied, so that the perturbator has all
its coefficients `0` and the combiner quotient is `0` at every point, the `target_sum` returned
by `fold_instances` is `0`, whatever the transcript challenges (`P.hash` is arbitrary). -/
theorem fold_instances_satisfied_target_sum {F X U : Type} [CommRing F] (P : Externals F X U)
    (NUM : Nat) (instances0 : List (Instance F X)) (t0 t : Transcript F)
    (L : FoldLocals F X U)
    (h : fold_instances_locals P NUM instances0 t0 = (t, Except.ok L))
    (hpert : ∀ c ∈ L.perturbator, c = 0)
    (hquot : ∀ z, P.evaluate L.combiner_quotient z = 0) :
    ∃ res, fold_instances P NUM instances0 t0 = (t, Except.ok res) ∧
      res.params.target_sum = 0 := by
  obtain ⟨t1, t2, t3, p0, S⟩ := fold_instances_locals_inv P NUM instances0 t0 t L h
  refine ⟨folding_result t L, ?_, ?_⟩
  · unfold fold_instances
    simp only [h]
  · show L.new_target_sum = 0
    rw [S.new_target_sum_eq, S.compressed_perturbator_eq, S.combiner_quotient_at_challenge_eq,
      polynomial_evaluate_zero _ _ hpert, hquot]
    simp

/-- C8, on a concrete fold with a zero perturbator and a zero combiner quotient. -/
theorem fold_instances_satisfied_target_sum_witness :
    fold_instances_locals satisfied_externals 2 example_instances ⟨[]⟩ =
      (satisfied_transcript, Except.ok satisfied_locals) ∧
    (∀ c ∈ satisfied_locals.perturbator, c = 0) ∧
    (∀ z, satisfied_externals.evaluate satisfied_locals.combiner_quotient z = 0) ∧
    ∃ res, fold_instances satisfied_externals 2 example_instances ⟨[]⟩ =
        (satisfied_transcript, Except.ok res) ∧
      res.params.target_sum = 0 :=
  ⟨rfl, by decide, fun _ => rfl,
    fold_instances_satisfied_target_sum satisfied_externals 2 example_instances ⟨[]⟩
      satisfied_transcript satisfied_locals rfl (by decide) (fun _ => rfl)⟩

/-- C9: for all polynomials `G` and `Q` and every `e`, if
`G(X) = (1 - X) * e + X * (X - 1) * Q(X)` as polynomials, then in every run of
`fold_instances` that returns with `compressed_perturbator = e` and
`combiner_quotient_at_challenge = Q(c)` at its combiner challenge `c`, the `new_target_sum`
and the returned `target_sum` equal `G(c)`. -/
theorem fold_instances_target_sum_eq_combiner {F X U : Type} [CommRing F]
    (P : Externals F X U) (NUM : Nat) (instances0 : List (Instance F X))
    (t0 t : Transcript F) (L : FoldLocals F X U) (G Q : Polynomial F) (e : F)
    (h : fold_instances_locals P NUM instances0 t0 = (t, Except.ok L))
    (hG : G = (1 - Polynomial.X) * Polynomial.C e + Polynomial.X * (Polynomial.X - 1) * Q)
    (he : L.compressed_perturbator = e)
    (hQ : L.combiner_quotient_at_challenge = Q.eval L.combiner_challenge) :
    L.new_target_sum = G.eval L.combiner_challenge ∧
    ∃ res, fold_instances P NUM instances0 t0 = (t, Except.ok res) ∧
      res.params.target_sum = G.eval L.combiner_challenge := by
  obtain ⟨t1, t2, t3, p0, S⟩ := fold_instances_locals_inv P NUM instances0 t0 t L h
  have hsum : L.new_target_sum = G.eval L.combiner_challenge := by
    rw [S.new_target_sum_eq, S.lagrange_0_eq, S.vanishing_eq, he, hQ, hG]
    simp only [Polynomial.eval_add, Polynomial.eval_mul, Polynomial.eval_sub,
      Polynomial.eval_one, Polynomial.eval_X, Polynomial.eval_C]
    ring
  refine ⟨hsum, folding_result t L, ?_, hsum⟩
  unfold fold_instances
  simp only [h]

/-- C9, on a concrete fold: `e = 381`, `Q = 3`, `c = 22`. -/
theorem fold_instances_target_sum_eq_combiner_witness :
    fold_instances_locals example_externals 2 example_instances ⟨[]⟩ =
      (example_transcript, Except.ok example_locals) ∧
    example_locals.compressed_perturbator = 381 ∧
    example_locals.combiner_quotient_at_challenge =
      (Polynomial.C (3 : Int)).eval example_locals.combiner_challenge ∧
    example_locals.new_target_sum =
      ((1 - Polynomial.X) * Polynomial.C (381 : Int) +
        Polynomial.X * (Polynomial.X - 1) * Polynomial.C 3).eval
          example_locals.combiner_challenge :=
  ⟨rfl, rfl, by simp [example_locals],
    (fold_instances_target_sum_eq_combiner example_externals 2 example_instances ⟨[]⟩
      example_transcript example_locals _ (Polynomial.C 3) 381 rfl rfl rfl
      (by simp [example_locals])).1⟩

/-- C10: for every accumulator whose first polynomial has size `2 ^ d`, with a `deltas` vector
of length `d` and a perturbator of `d + 1` coefficients: when `d ≥ 1` and
`gate_separation_challenges` has length `d`, `fold_instances` runs without any out-of-bounds
access, and `betas_star[0]`, `betas_star[i]`, `betas[i]`, `deltas[i - 1]` for `1 ≤ i < d` and
`perturbator[i]` for `i ≤ d` are in bounds; when `d ≥ 2` and `gate_separation_challenges` is
shorter than `d`, the read `betas[i]` is out of bounds for some `1 ≤ i < d`. -/
theorem fold_instances_index_bounds {F X U : Type} [CommRing F] (P : Externals F X U)
    (NUM : Nat) (instances0 instances : List (Instance F X)) (t0 t1 : Transcript F)
    (accumulator : Instance F X) (polynomial_0 : List F) (d : Nat)
    (hprep : prepare_for_folding P instances0 t0 = (t1, Except.ok instances))
    (hacc : get_accumulator instances = Except.ok accumulator)
    (hpoly : accumulator.prover_polynomials[0]? = some polynomial_0)
    (hsize : polynomial_0.length = 2 ^ d)
    (hdeltas : ∀ x, (P.compute_round_challenge_pows d x).length = d)
    (hpert : ∀ x a, (P.compute_perturbator accumulator
      (P.compute_round_challenge_pows d x) a).length = d + 1) :
    (1 ≤ d → accumulator.folding_parameters.gate_separation_challenges.length = d →
      ∃ t L, fold_instances_locals P NUM instances0 t0 = (t, Except.ok L) ∧
        L.betas = accumulator.folding_parameters.gate_separation_challenges ∧
        0 < L.betas_star.length ∧
        (∀ i, 1 ≤ i → i < d →
          i < L.betas_star.length ∧ i < L.betas.length ∧ i - 1 < L.deltas.length) ∧
        (∀ i, i ≤ d → i < L.perturbator.length)) ∧
    (2 ≤ d → accumulator.folding_parameters.gate_separation_challenges.length < d →
      ∃ t i, 1 ≤ i ∧ i < d ∧
        accumulator.folding_parameters.gate_separation_challenges.length ≤ i ∧
        fold_instances_locals P NUM instances0 t0 =
          (t, Except.error (Fault.out_of_bounds "betas" i))) := by
  have hmsb : get_msb polynomial_0.length = d := by rw [hsize, get_msb_two_pow]
  refine ⟨fun hd hbetas => ?_, fun hd hbetas => ?_⟩
  · obtain ⟨t, L, hL⟩ := fold_instances_locals_ok P NUM instances0 instances t0 t1 accumulator
      polynomial_0 hprep hacc hpoly (by omega) (by omega)
      (fun x => by rw [hmsb, hdeltas]; omega) (fun x a => by rw [hmsb, hpert])
    obtain ⟨_, hl, hb, hbs, hp⟩ := fold_steps_accumulator P NUM instances0 instances t0 t t1
      accumulator polynomial_0 L hprep hacc hpoly hL
    obtain ⟨_, hlen, _, hi⟩ := compute_betas_star_inv _ _ _ _ _ _ hbs
    rw [hl, hmsb] at hlen hi hp
    refine ⟨t, L, hL, hb, by omega, fun i h1 h2 => ?_, fun i h1 => by omega⟩
    obtain ⟨b, dl, e1, e2, _⟩ := hi i h1 h2
    obtain ⟨g1, _⟩ := List.getElem?_eq_some.1 e1
    obtain ⟨g2, _⟩ := List.getElem?_eq_some.1 e2
    exact ⟨by omega, g1, g2⟩
  · obtain ⟨t, ht⟩ := fold_instances_locals_betas_fault P NUM instances0 instances t0 t1
      accumulator polynomial_0 hprep hacc hpoly (by omega) (by omega)
      (fun x => by rw [hmsb, hdeltas]; omega) (fun x a => by rw [hmsb, hpert])
    exact ⟨t, _, by omega, by omega, by omega, ht⟩

/-- C10, on two concrete folds with `d = 2`: one with two gate separation challenges, one
with a single one. -/
theorem fold_instances_index_bounds_witness :
    (∃ t L, fold_instances_locals example_externals 2 example_instances ⟨[]⟩ =
        (t, Except.ok L) ∧
      L.betas = (example_instance 4 [3, 4]).folding_parameters.gate_separation_challenges ∧
      0 < L.betas_star.length ∧
      (∀ i, 1 ≤ i → i < 2 →
        i < L.betas_star.length ∧ i < L.betas.length ∧ i - 1 < L.deltas.length) ∧
      (∀ i, i ≤ 2 → i < L.perturbator.length)) ∧
    (∃ t i, 1 ≤ i ∧ i < 2 ∧
      (example_instance 4 [3]).folding_parameters.gate_separation_challenges.length ≤ i ∧
      fold_instances_locals example_externals 2 short_betas_instances ⟨[]⟩ =
        (t, Except.error (Fault.out_of_bounds "betas" i))) :=
  ⟨(fold_instances_index_bounds example_externals 2 example_instances example_instances ⟨[]⟩
      ⟨example_preparation⟩ (example_instance 4 [3, 4]) [0, 0, 0, 0] 2 rfl rfl rfl rfl
      (fun x => by simp [example_externals])
      (fun x a => by simp [example_externals])).1 (by decide) rfl,
    (fold_instances_index_bounds example_externals 2 short_betas_instances
      short_betas_instances ⟨[]⟩ ⟨example_preparation⟩ (example_instance 4 [3]) [0, 0, 0, 0] 2
      rfl rfl rfl rfl (fun x => by simp [example_externals])
      (fun x a => by simp [example_externals])).2 (by decide) (by decide)⟩

end ProtoGalaxy

namespace AvmMiniFlavor

/-- C11: in `AllEntities` of the AvmMini flavor, `get_unshifted()` followed by `get_shifted()`
lists each of the `NUM_ALL_ENTITIES = 15` slots exactly once, in slot order (the 12 unshifted
slots `0..11`, then the 3 shifted slots `12..14`); `get_to_be_shifted()` has the length of
`get_shifted()`, each of its entries occurs in `get_unshifted()`, and its `i`-th entry is the
member whose shift is the `i`-th entry of `get_shifted()`: `m_val`, `m_rw`, `m_addr` against
`m_val_shift`, `m_rw_shift`, `m_addr_shift` (the shifted member is named after the member it
shifts, with `_shift` appended). -/
theorem all_entities_getters :
    NUM_ALL_ENTITIES = 15 ∧
    (get_unshifted ++ get_shifted).map Entity.slot = List.range NUM_ALL_ENTITIES ∧
    (∀ s, s < NUM_ALL_ENTITIES →
      ((get_unshifted ++ get_shifted).map Entity.slot).count s = 1) ∧
    get_unshifted.map Entity.slot = List.range 12 ∧
    get_shifted.map Entity.slot = [12, 13, 14] ∧
    get_to_be_shifted.length = get_shifted.length ∧
    (∀ e ∈ get_to_be_shifted, e ∈ get_unshifted) ∧
    List.zip get_to_be_shifted get_shifted =
      [ (Entity.avmMini_m_val, Entity.avmMini_m_val_shift),
        (Entity.avmMini_m_rw, Entity.avmMini_m_rw_shift),
        (Entity.avmMini_m_addr, Entity.avmMini_m_addr_shift) ] ∧
    get_shifted.map Entity.member_name =
      get_to_be_shifted.map (fun e => e.member_name ++ "_shift") := by
  refine ⟨rfl, by decide, by decide, by decide, by decide, rfl, by decide, rfl, by decide⟩

end AvmMiniFlavor
